import Mathlib

/-!
Verification of the CS2 match-flattening service (`src/main.py`).

The transform operates on decoded JSON documents (Python dicts/lists/strings/
numbers).  We embed JSON values shallowly as `JVal`; Python dictionaries are
association lists with string keys (Python dicts preserve insertion order and
have unique keys).  Numbers are modelled as integers: no claim under check
depends on fractional values, and every numeric operation the code performs
(truthiness, equality, `int(...)`) restricts to integers.  Fallible Python
operations (attribute errors on `.get`, `TypeError` on `len`/hashing, `KeyError`
on indexing, `ValueError` on `int(...)`) are modelled with `Except String`.
-/

inductive JVal where
  | null
  | bool (b : Bool)
  | num (n : Int)
  | str (s : String)
  | arr (xs : List JVal)
  | obj (fields : List (String × JVal))

namespace JVal

/- Structural (Lean-level) equality test on JSON values, used to build the
`DecidableEq` instance that the nested inductive cannot derive. -/
mutual
def jveq : JVal → JVal → Bool
  | .null, .null => true
  | .bool a, .bool c => a == c
  | .num a, .num c => a == c
  | .str a, .str c => a == c
  | .arr a, .arr c => jveqList a c
  | .obj a, .obj c => jveqFields a c
  | _, _ => false
def jveqList : List JVal → List JVal → Bool
  | [], [] => true
  | x :: xs, y :: ys => jveq x y && jveqList xs ys
  | _, _ => false
def jveqFields : List (String × JVal) → List (String × JVal) → Bool
  | [], [] => true
  | (k, v) :: xs, (k', v') :: ys => k == k' && jveq v v' && jveqFields xs ys
  | _, _ => false
end

mutual
theorem jveq_iff : (a b : JVal) → (jveq a b = true ↔ a = b)
  | .null, b => by cases b <;> simp [jveq]
  | .bool a, b => by cases b <;> simp [jveq]
  | .num a, b => by cases b <;> simp [jveq]
  | .str a, b => by cases b <;> simp [jveq]
  | .arr xs, b => by
      cases b <;> simp [jveq]
      exact jveqList_iff xs _
  | .obj fs, b => by
      cases b <;> simp [jveq]
      exact jveqFields_iff fs _
theorem jveqList_iff : (xs ys : List JVal) → (jveqList xs ys = true ↔ xs = ys)
  | [], ys => by cases ys <;> simp [jveqList]
  | x :: xs, ys => by
      cases ys <;> simp [jveqList]
      rw [jveq_iff, jveqList_iff]
theorem jveqFields_iff :
    (xs ys : List (String × JVal)) → (jveqFields xs ys = true ↔ xs = ys)
  | [], ys => by cases ys <;> simp [jveqFields]
  | (k, v) :: xs, ys => by
      cases ys with
      | nil => simp [jveqFields]
      | cons y ys =>
          obtain ⟨k', v'⟩ := y
          simp [jveqFields, jveq_iff, jveqFields_iff xs ys, and_assoc]
end

instance : DecidableEq JVal := fun a b => decidable_of_iff _ (jveq_iff a b)

/-- First-match lookup in a string-keyed association list (a Python dict whose
keys are the literal string keys of a JSON object). -/
def lookupStr (fs : List (String × JVal)) (k : String) : Option JVal :=
  match fs with
  | [] => none
  | (k', v) :: rest => if k' = k then some v else lookupStr rest k

/-- Python truthiness (`bool(x)`): `None`, `False`, `0`, `""`, `[]`, `{}` are
falsy, everything else truthy. -/
def truthy : JVal → Bool
  | .null => false
  | .bool b => b
  | .num n => n != 0
  | .str s => !s.isEmpty
  | .arr xs => !xs.isEmpty
  | .obj fs => !fs.isEmpty

/- Python `==` on JSON values.  Booleans compare equal to the integers 0/1
(`True == 1`), values of different (non-numeric-cross) kinds compare unequal,
lists compare elementwise, dicts compare as key-value maps (order-insensitive;
keys in our model are unique, so length-equality plus left-to-right inclusion
is dict equality). -/
mutual
def pyEq : JVal → JVal → Bool
  | .null, .null => true
  | .bool a, .bool c => a == c
  | .bool a, .num n => (if a then (1 : Int) else 0) == n
  | .num n, .bool a => n == (if a then (1 : Int) else 0)
  | .num a, .num c => a == c
  | .str a, .str c => a == c
  | .arr a, .arr c => pyEqList a c
  | .obj a, .obj c => a.length == c.length && pyEqFields a c
  | _, _ => false
def pyEqList : List JVal → List JVal → Bool
  | [], [] => true
  | x :: xs, y :: ys => pyEq x y && pyEqList xs ys
  | _, _ => false
def pyEqFields : List (String × JVal) → List (String × JVal) → Bool
  | [], _ => true
  | (k, v) :: rest, c =>
      (match lookupStr c k with
       | some w => pyEq v w
       | none => false) && pyEqFields rest c
end

/-- Python hashability: `None`, booleans, numbers and strings are hashable;
lists and dicts are not (inserting them as dict keys raises `TypeError`). -/
def pyHashable : JVal → Bool
  | .null => true
  | .bool _ => true
  | .num _ => true
  | .str _ => true
  | .arr _ => false
  | .obj _ => false

/-- Python list membership `x in [a, b, ...]` (each element compared to the
target with `==`). -/
def pyMem (x : JVal) (l : List JVal) : Bool :=
  l.any (fun e => pyEq e x)

/-- Python `d.get(k)` (default `None`): succeeds only on a dict, otherwise the
attribute access raises. -/
def pyGet (v : JVal) (k : String) : Except String JVal :=
  match v with
  | .obj fs => .ok ((lookupStr fs k).getD .null)
  | _ => .error "AttributeError: object has no attribute get"

/-- Python `d.get(k, default)`: the default is used only when the key is
absent; a key present with value `None` yields `None`. -/
def pyGetD (v : JVal) (k : String) (d : JVal) : Except String JVal :=
  match v with
  | .obj fs => .ok ((lookupStr fs k).getD d)
  | _ => .error "AttributeError: object has no attribute get"

/-- Python `len(x)`: defined for strings, lists and dicts; `TypeError`
otherwise. -/
def pyLen : JVal → Except String Nat
  | .str s => .ok s.length
  | .arr xs => .ok xs.length
  | .obj fs => .ok fs.length
  | _ => .error "TypeError: object has no len"

/-- Python iteration `for x in v`: lists yield their elements, strings their
characters (as one-character strings), dicts their keys; `TypeError`
otherwise. -/
def pyIter : JVal → Except String (List JVal)
  | .arr xs => .ok xs
  | .str s => .ok (s.toList.map (fun c => .str (String.mk [c])))
  | .obj fs => .ok (fs.map (fun kv => .str kv.1))
  | _ => .error "TypeError: object is not iterable"

/-- Python `v[i]` for a natural-number index: lists and strings index
positionally (`IndexError` out of range); a dict looks the integer up among
its keys, which in our model are strings, hence `KeyError`; `TypeError`
otherwise. -/
def pyIndex (v : JVal) (i : Nat) : Except String JVal :=
  match v with
  | .arr xs =>
      match xs.get? i with
      | some x => .ok x
      | none => .error "IndexError: list index out of range"
  | .str s =>
      match s.toList.get? i with
      | some c => .ok (.str (String.mk [c]))
      | none => .error "IndexError: string index out of range"
  | .obj _ => .error "KeyError"
  | _ => .error "TypeError: object is not subscriptable"

/-- Python `int(x)`: integers pass through, booleans become 0/1, strings are
parsed as (optionally signed) decimal integers after stripping whitespace;
anything else raises. -/
def pyInt : JVal → Except String Int
  | .num n => .ok n
  | .bool b => .ok (if b then 1 else 0)
  | .str s =>
      match (s.trim).toInt? with
      | some n => .ok n
      | none => .error "ValueError: invalid literal for int"
  | _ => .error "TypeError: int argument must be a number or string"

end JVal

open JVal

/-- Lookup in a Python dict keyed by (hashable) JSON values: first entry whose
stored key compares `==` to the probe. -/
def alistFind {α : Type} (l : List (JVal × α)) (k : JVal) : Option α :=
  match l with
  | [] => none
  | (k', v) :: rest => if pyEq k' k then some v else alistFind rest k

/-- Python dict assignment `d[k] = v`: overwrite the value of an existing
(`==`-equal) key in place, else append a new entry (insertion order is
preserved). -/
def alistInsert {α : Type} (l : List (JVal × α)) (k : JVal) (v : α) :
    List (JVal × α) :=
  match l with
  | [] => [(k, v)]
  | (k', v') :: rest =>
      if pyEq k' k then (k', v) :: rest else (k', v') :: alistInsert rest k v

/-- `defaultdict(list)[k].append(x)`: append to the list of an existing key,
else create a new singleton entry at the end. -/
def ddAppend (l : List (JVal × List JVal)) (k : JVal) (x : JVal) :
    List (JVal × List JVal) :=
  match l with
  | [] => [(k, [x])]
  | (k', xs) :: rest =>
      if pyEq k' k then (k', xs ++ [x]) :: rest else (k', xs) :: ddAppend rest k x

/-- `len(set(l))`: the number of `==`-distinct elements of a list of hashable
values. -/
def distinctCount (l : List JVal) : Nat :=
  (l.foldl (fun acc x => if acc.any (fun e => pyEq e x) then acc else acc ++ [x])
    []).length

/-- Modelled from the spec: the start timestamp is parsed by a third-party
date parser ("Reject if the start timestamp cannot be parsed as a date/time
value").  The parser is not part of this repository; we model it as a
predicate on strings — a string parses as a date exactly when it contains a
digit (so `"2024-01-01T00:00:00Z"` parses and `"??"` does not) — and render
the parsed value back (`isoformat`) as the string itself.  Non-strings fail
to parse (`parse(None)` and `parse(3)` raise, which the caller absorbs).  No
claim under check depends on which strings parse or on the rendered value. -/
def parseDate : JVal → Option String
  | .str s => if s.toList.any Char.isDigit then some s else none
  | _ => none

/-- The value association of the series-tier literal `{"s": 1, "a": 2,
"b": 3, "c": 4, "d": 5}` (src/main.py line 112): which entry a hashable probe
value compares `==` to, `none` when no entry matches.  The hashing step of
`dict.get` is in `tierMap` below. -/
def tierTable (v : JVal) : Option Int :=
  if pyEq (.str "s") v then some 1
  else if pyEq (.str "a") v then some 2
  else if pyEq (.str "b") v then some 3
  else if pyEq (.str "c") v then some 4
  else if pyEq (.str "d") v then some 5
  else none

/-- `{"s": 1, "a": 2, "b": 3, "c": 4, "d": 5}.get(serie.get("tier"))`
(src/main.py line 112): `dict.get` hashes its key first, so an unhashable
probe (a list or dict tier value) raises `TypeError`; otherwise the lookup is
total and an unrecognized or absent probe yields `None`. -/
def tierMap (v : JVal) : Except String (Option Int) :=
  if pyHashable v then .ok (tierTable v)
  else .error "TypeError: unhashable type"

/-- The value association of the outcome literal `{"exploded": 1,
"defused": 2, "eliminated": 3, "timeout": 4}` (src/main.py lines 188-193);
the hashing step of `dict.get` is in `outcomeMap` below. -/
def outcomeTable (v : JVal) : Option Int :=
  if pyEq (.str "exploded") v then some 1
  else if pyEq (.str "defused") v then some 2
  else if pyEq (.str "eliminated") v then some 3
  else if pyEq (.str "timeout") v then some 4
  else none

/-- `{"exploded": 1, "defused": 2, "eliminated": 3,
"timeout": 4}.get(rnd.get("outcome"))` (src/main.py lines 188-193):
`dict.get` hashes its key first, so an unhashable probe raises `TypeError`;
otherwise the lookup is total and an unrecognized or absent probe yields
`None`. -/
def outcomeMap (v : JVal) : Except String (Option Int) :=
  if pyHashable v then .ok (outcomeTable v)
  else .error "TypeError: unhashable type"

/-- The ten per-player statistics kept by the flattener
(src/main.py lines 128-139). -/
def statKeys : List String :=
  ["adr", "kast", "rating", "kills", "deaths", "assists", "headshots",
   "flash_assists", "first_kills_diff", "k_d_diff"]

/-- `p.get(k, 0)` on a participation dict: the statistic's value if the key is
present (even when it is `None`), numeric zero when the key is absent
(src/main.py line 127). -/
def statGet (pf : List (String × JVal)) (k : String) : JVal :=
  (lookupStr pf k).getD (.num 0)

/-- The per-player statistics record `d_player_stat[p_id]`
(src/main.py lines 126-140): all ten keys are always present. -/
structure Stats where
  adr : JVal
  kast : JVal
  rating : JVal
  kills : JVal
  deaths : JVal
  assists : JVal
  headshots : JVal
  flash_assists : JVal
  first_kills_diff : JVal
  k_d_diff : JVal
  deriving DecidableEq

def statsOfFields (pf : List (String × JVal)) : Stats :=
  { adr := statGet pf "adr"
    kast := statGet pf "kast"
    rating := statGet pf "rating"
    kills := statGet pf "kills"
    deaths := statGet pf "deaths"
    assists := statGet pf "assists"
    headshots := statGet pf "headshots"
    flash_assists := statGet pf "flash_assists"
    first_kills_diff := statGet pf "first_kills_diff"
    k_d_diff := statGet pf "k_d_diff" }

/-- One output row of the flattener (src/main.py lines 172-196).  The Python
row is a dict with this fixed key set; we embed it as a record. -/
structure Row where
  game_id : JVal
  begin_at : String
  map_id : JVal
  league_id : JVal
  serie_id : JVal
  serie_tier : Option Int
  tournament_id : JVal
  team_id : JVal
  team_opponent_id : JVal
  player_id : JVal
  player_opponent_id : JVal
  adr : JVal
  kast : JVal
  rating : JVal
  kills : JVal
  deaths : JVal
  assists : JVal
  headshots : JVal
  flash_assists : JVal
  first_kills_diff : JVal
  k_d_diff : JVal
  round : Int
  is_ct : Int
  outcome : Option Int
  win : Int
  deriving DecidableEq

/-- The per-game constants shared by all rows of one match. -/
structure GameCtx where
  game_id : JVal
  begin_at : String
  map_id : JVal
  league_id : JVal
  serie_id : JVal
  serie_tier : Option Int
  tournament_id : JVal
  deriving DecidableEq

/-- State of the participation loop (src/main.py lines 117-142):
`d_player_stat`, `dd_team_players` and `d_teams`. -/
structure BuildState where
  stats : List (JVal × Stats)
  teamPlayers : List (JVal × List JVal)
  teams : List (JVal × JVal)
  deriving DecidableEq

/-- One iteration of the participation loop (src/main.py lines 120-142):
extract player/team/opponent ids, skip the entry if any is falsy, then record
the statistics, the team roster entry and the team's opponent.  Dict-key
insertion of an unhashable id raises `TypeError`. -/
def buildStep (st : BuildState) (p : JVal) : Except String BuildState :=
  match p with
  | .obj pf =>
      match pyGet ((lookupStr pf "player").getD (.obj [])) "id" with
      | .error e => .error e
      | .ok p_id =>
        match pyGet ((lookupStr pf "team").getD (.obj [])) "id" with
        | .error e => .error e
        | .ok t_id =>
          match pyGet ((lookupStr pf "opponent").getD (.obj [])) "id" with
          | .error e => .error e
          | .ok opp_id =>
            if !(truthy p_id && truthy t_id && truthy opp_id) then .ok st
            else if !pyHashable p_id then .error "TypeError: unhashable type"
            else
              let st1id := { st with
                stats := alistInsert st.stats p_id (statsOfFields pf) }
              if !pyHashable t_id then .error "TypeError: unhashable type"
              else .ok { st1id with
                teamPlayers := ddAppend st1id.teamPlayers t_id p_id
                teams := alistInsert st1id.teams t_id opp_id }
  | _ => .error "AttributeError: object has no attribute get"

/-- One round inside the innermost loop (src/main.py lines 156-196): skip the
round unless both side ids are truthy, the round number is truthy, both side
ids are `in [t_id, t_opp_id]`, and the winner is truthy and `in
[t_id, t_opp_id]`; otherwise build the row (`d_player_stat[p_id]` lookup,
then `int(round_number)`, which may raise). -/
def processRound (ctx : GameCtx) (statsMap : List (JVal × Stats))
    (t_id t_opp_id p_id p_opp_id rnd : JVal) : Except String (Option Row) :=
  match rnd with
  | .obj rf =>
      let ct_id := (lookupStr rf "ct").getD .null
      let terrorists_id := (lookupStr rf "terrorists").getD .null
      if !(truthy ct_id && truthy terrorists_id) then .ok none
      else
        let rnd_number := (lookupStr rf "round").getD .null
        if !truthy rnd_number then .ok none
        else if !(pyMem ct_id [t_id, t_opp_id] && pyMem terrorists_id [t_id, t_opp_id]) then
          .ok none
        else
          let winner_team := (lookupStr rf "winner_team").getD .null
          if !(truthy winner_team && pyMem winner_team [t_id, t_opp_id]) then .ok none
          else
            match alistFind statsMap p_id with
            | none => .error "KeyError"
            | some stats =>
              match pyInt rnd_number with
              | .error e => .error e
              | .ok rn =>
                match outcomeMap ((lookupStr rf "outcome").getD .null) with
                | .error e => .error e
                | .ok oc => .ok <| some
                  { game_id := ctx.game_id
                    begin_at := ctx.begin_at
                    map_id := ctx.map_id
                    league_id := ctx.league_id
                    serie_id := ctx.serie_id
                    serie_tier := ctx.serie_tier
                    tournament_id := ctx.tournament_id
                    team_id := t_id
                    team_opponent_id := t_opp_id
                    player_id := p_id
                    player_opponent_id := p_opp_id
                    adr := stats.adr
                    kast := stats.kast
                    rating := stats.rating
                    kills := stats.kills
                    deaths := stats.deaths
                    assists := stats.assists
                    headshots := stats.headshots
                    flash_assists := stats.flash_assists
                    first_kills_diff := stats.first_kills_diff
                    k_d_diff := stats.k_d_diff
                    round := rn
                    is_ct := if pyEq t_id ct_id then 1 else 0
                    outcome := oc
                    win := if pyEq winner_team t_id then 1 else 0 }
  | _ => .error "AttributeError: object has no attribute get"

/-- `for rnd in rounds:` (src/main.py line 156). -/
def rowsForRounds (ctx : GameCtx) (statsMap : List (JVal × Stats))
    (t_id t_opp_id p_id p_opp_id : JVal) :
    List JVal → Except String (List Row)
  | [] => .ok []
  | rnd :: rest =>
      match processRound ctx statsMap t_id t_opp_id p_id p_opp_id rnd with
      | .error e => .error e
      | .ok r =>
        match rowsForRounds ctx statsMap t_id t_opp_id p_id p_opp_id rest with
        | .error e => .error e
        | .ok rs => .ok (r.toList ++ rs)

/-- `for p_opp_id in p_opp_ids:` (src/main.py line 155). -/
def rowsForOpp (ctx : GameCtx) (statsMap : List (JVal × Stats))
    (t_id t_opp_id p_id : JVal) (rounds : List JVal) :
    List JVal → Except String (List Row)
  | [] => .ok []
  | p_opp_id :: rest =>
      match rowsForRounds ctx statsMap t_id t_opp_id p_id p_opp_id rounds with
      | .error e => .error e
      | .ok rs =>
        match rowsForOpp ctx statsMap t_id t_opp_id p_id rounds rest with
        | .error e => .error e
        | .ok more => .ok (rs ++ more)

/-- `for p_id in p_ids:` (src/main.py line 154). -/
def rowsForPlayers (ctx : GameCtx) (statsMap : List (JVal × Stats))
    (t_id t_opp_id : JVal) (p_opp_ids rounds : List JVal) :
    List JVal → Except String (List Row)
  | [] => .ok []
  | p_id :: rest =>
      match rowsForOpp ctx statsMap t_id t_opp_id p_id rounds p_opp_ids with
      | .error e => .error e
      | .ok rs =>
        match rowsForPlayers ctx statsMap t_id t_opp_id p_opp_ids rounds rest with
        | .error e => .error e
        | .ok more => .ok (rs ++ more)

/-- `for t_id, p_ids in dd_team_players.items():` (src/main.py lines 147-153):
skip teams without exactly five distinct players, teams whose declared
opponent id is falsy, and teams whose opponent is not itself a key of
`dd_team_players` (testing membership of an unhashable opponent raises). -/
def rowsForTeams (ctx : GameCtx) (statsMap : List (JVal × Stats))
    (teamPlayers : List (JVal × List JVal)) (d_teams : List (JVal × JVal))
    (rounds : List JVal) :
    List (JVal × List JVal) → Except String (List Row)
  | [] => .ok []
  | (t_id, p_ids) :: rest =>
      if distinctCount p_ids ≠ 5 then
        rowsForTeams ctx statsMap teamPlayers d_teams rounds rest
      else
        let t_opp_id := (alistFind d_teams t_id).getD .null
        if !truthy t_opp_id then
          rowsForTeams ctx statsMap teamPlayers d_teams rounds rest
        else if !pyHashable t_opp_id then
          .error "TypeError: unhashable type"
        else
          match alistFind teamPlayers t_opp_id with
          | none => rowsForTeams ctx statsMap teamPlayers d_teams rounds rest
          | some p_opp_ids =>
              match rowsForPlayers ctx statsMap t_id t_opp_id p_opp_ids rounds
                p_ids with
              | .error e => .error e
              | .ok mine =>
                match rowsForTeams ctx statsMap teamPlayers d_teams rounds rest with
                | .error e => .error e
                | .ok more => .ok (mine ++ more)

/-- Continuation of `flatten_game` from the `players` check on
(src/main.py lines 114-145). -/
def flatten_game_players (game : JVal) (ctx : GameCtx) :
    Except String (List Row) :=
  match pyGetD game "players" (.arr []) with
  | .error e => .error e
  | .ok players =>
    match pyLen players with
    | .error e => .error e
    | .ok nPlayers =>
      if nPlayers ≠ 10 then .ok []
      else
        match pyIter players with
        | .error e => .error e
        | .ok playerList =>
          match playerList.foldlM buildStep ⟨[], [], []⟩ with
          | .error e => .error e
          | .ok st =>
            match pyGetD game "rounds" (.arr []) with
            | .error e => .error e
            | .ok rounds =>
              match pyLen rounds with
              | .error e => .error e
              | .ok nRounds =>
                if nRounds < 16 then .ok []
                else if !truthy rounds then .ok []
                else
                  match pyIndex rounds 0 with
                  | .error e => .error e
                  | .ok round0 =>
                    match pyGet round0 "round" with
                    | .error e => .error e
                    | .ok round0Num =>
                      if !pyEq round0Num (.num 1) then .ok []
                      else
                        match pyIter rounds with
                        | .error e => .error e
                        | .ok roundList =>
                          rowsForTeams ctx st.stats st.teamPlayers st.teams
                            roundList st.teamPlayers

/-- `flatten_game` (src/main.py lines 96-197), with the source's control flow
written out as explicit matches: every early `return []` of the Python code is
an `.ok []` here, and every place where the Python code could raise is an
`.error`.  The `begin_at` parse failure is absorbed (logged) and yields
`.ok []`. -/
def flatten_game (game : JVal) : Except String (List Row) :=
  match pyGet game "id" with
  | .error e => .error e
  | .ok game_id =>
    if !truthy game_id then .ok []
    else
      match pyGet game "begin_at" with
      | .error e => .error e
      | .ok beginAtVal =>
        match parseDate beginAtVal with
        | none => .ok []
        | some begin_at =>
          match pyGetD game "map" (.obj []) with
          | .error e => .error e
          | .ok mapVal =>
            match pyGet mapVal "id" with
            | .error e => .error e
            | .ok map_id =>
              if !truthy map_id then .ok []
              else
                match pyGetD game "match" (.obj []) with
                | .error e => .error e
                | .ok matchVal =>
                  match pyGetD matchVal "league" (.obj []) with
                  | .error e => .error e
                  | .ok leagueVal =>
                    match pyGet leagueVal "id" with
                    | .error e => .error e
                    | .ok league_id =>
                      match pyGetD matchVal "serie" (.obj []) with
                      | .error e => .error e
                      | .ok serieVal =>
                        match pyGet serieVal "id" with
                        | .error e => .error e
                        | .ok serie_id =>
                          match pyGet serieVal "tier" with
                          | .error e => .error e
                          | .ok tierVal =>
                            match tierMap tierVal with
                            | .error e => .error e
                            | .ok serie_tier =>
                              match pyGetD matchVal "tournament" (.obj []) with
                              | .error e => .error e
                              | .ok tournVal =>
                                match pyGet tournVal "id" with
                                | .error e => .error e
                                | .ok tournament_id =>
                                  flatten_game_players game
                                    { game_id := game_id
                                      begin_at := begin_at
                                      map_id := map_id
                                      league_id := league_id
                                      serie_id := serie_id
                                      serie_tier := serie_tier
                                      tournament_id := tournament_id }

/-- One file of the input directory, as the extractor sees it: its name and,
when it is readable and valid JSON, the decoded match document.  JSON decoding
itself is an external library; a file either decodes to a document
(`content = some v`) or fails to decode (`content = none`, logged and
skipped). -/
structure FileEntry where
  name : String
  content : Option JVal
  deriving DecidableEq

/-- Filename suffix test (character-level; `String.endsWith` itself does not
reduce definitionally). -/
def strEndsWith (s suffix : String) : Bool :=
  decide (suffix.toList.length ≤ s.toList.length) &&
    (s.toList.drop (s.toList.length - suffix.toList.length) == suffix.toList)

/-- The `*.json` glob of `game_extractor` (src/main.py line 77). -/
def jsonFiles (dir : List FileEntry) : List FileEntry :=
  dir.filter (fun f => strEndsWith f.name ".json")

/-- `game_extractor` (src/main.py lines 76-85): raise `FileNotFoundError` when
the glob matches no file at all, otherwise yield the documents of the files
that decode, silently skipping (logging) the ones that do not. -/
def game_extractor (dir : List FileEntry) : Except String (List JVal) :=
  if (jsonFiles dir).isEmpty then
    .error "FileNotFoundError: No JSON files found"
  else
    .ok ((jsonFiles dir).filterMap (fun f => f.content))

/-- The body of the `process_games` loop (src/main.py lines 202-207), with the
accumulator `parsed_games` made explicit: flatten each document; when the
result is non-empty, persist it and append `flat_data[0]["game_id"]` to the
result list.  (The file write is I/O with no bearing on the claims and is not
modelled.) -/
def process_games_go : List JVal → List JVal → Except String (List JVal)
  | [], acc => .ok acc
  | g :: rest, acc =>
      match flatten_game g with
      | .error e => .error e
      | .ok [] => process_games_go rest acc
      | .ok (r :: _) => process_games_go rest (acc ++ [r.game_id])

def process_games_list (games : List JVal) : Except String (List JVal) :=
  process_games_go games []

/-- `process_games` (src/main.py lines 200-208). -/
def process_games (dir : List FileEntry) : Except String (List JVal) :=
  match game_extractor dir with
  | .error e => .error e
  | .ok games => process_games_list games

/-! ## Spec-side observations of a match document -/

/-- The match identifier of a document, `game.get("id")` read off the raw
document. -/
def docId (game : JVal) : JVal :=
  match game with
  | .obj fs => (lookupStr fs "id").getD .null
  | _ => .null

/-- The length the flattener's `len(players)` call would see, if it is
defined. -/
def playersLenOf (game : JVal) : Option Nat :=
  match game with
  | .obj fs => (pyLen ((lookupStr fs "players").getD (.arr []))).toOption
  | _ => none

/-- The length the flattener's `len(rounds)` call would see, if it is
defined. -/
def roundsLenOf (game : JVal) : Option Nat :=
  match game with
  | .obj fs => (pyLen ((lookupStr fs "rounds").getD (.arr []))).toOption
  | _ => none

/-- Whether the document's first round entry exists and carries a round
number `== 1`. -/
def firstRoundIsOne (game : JVal) : Bool :=
  match game with
  | .obj fs =>
      match (lookupStr fs "rounds").getD (.arr []) with
      | .arr (r :: _) =>
          match r with
          | .obj rf => pyEq ((lookupStr rf "round").getD .null) (.num 1)
          | _ => false
      | _ => false
  | _ => false

/-- The document's rounds list (empty when absent or not a list). -/
def roundsOf (game : JVal) : List JVal :=
  match game with
  | .obj fs =>
      match lookupStr fs "rounds" with
      | some (.arr rs) => rs
      | _ => []
  | _ => []

/-- The match identifier key is present but its value is falsy. -/
def falsyIdPresent (game : JVal) : Bool :=
  match game with
  | .obj fs =>
      (lookupStr fs "id").isSome && !truthy ((lookupStr fs "id").getD .null)
  | _ => false

/-- The map identifier key is present (inside a map object) but its value is
falsy. -/
def falsyMapIdPresent (game : JVal) : Bool :=
  match game with
  | .obj fs =>
      match lookupStr fs "map" with
      | some (.obj mf) =>
          (lookupStr mf "id").isSome && !truthy ((lookupStr mf "id").getD .null)
      | _ => false
  | _ => false

/-! ## Basic lemmas about the Python primitives -/

theorem pyEq_refl (v : JVal) (h : pyHashable v = true) : pyEq v v = true := by
  cases v <;> simp_all [pyEq, pyHashable]

theorem ne_of_pyEq_false {a b : JVal} (ha : pyHashable a = true)
    (h : pyEq a b = false) : a ≠ b := by
  intro hab
  rw [hab] at ha h
  rw [pyEq_refl b ha] at h
  simp at h

/-! ## Concrete fixture documents -/

/-- A participation entry with the given player, team and opponent ids and
extra top-level fields (statistics). -/
def mkPartWith (extra : List (String × JVal)) (pid t o : String) : JVal :=
  .obj ([("player", .obj [("id", .str pid)]),
         ("team", .obj [("id", .str t)]),
         ("opponent", .obj [("id", .str o)])] ++ extra)

def mkPart (pid t o : String) : JVal := mkPartWith [] pid t o

/-- A complete round entry. -/
def mkRound (n : Int) (ct terr win out : String) : JVal :=
  .obj [("round", .num n), ("ct", .str ct), ("terrorists", .str terr),
        ("winner_team", .str win), ("outcome", .str out)]

/-- A round entry with no winner: the flattener skips it. -/
def mkRoundOpen (n : Int) (ct terr : String) : JVal :=
  .obj [("round", .num n), ("ct", .str ct), ("terrorists", .str terr)]

/-- Ten players: p0..p4 on team t1 against t2, p5..p9 on t2 against t1. -/
def fixturePlayers : List JVal :=
  (List.range 10).map (fun i =>
    mkPart ("p" ++ toString i) (if i < 5 then "t1" else "t2")
      (if i < 5 then "t2" else "t1"))

/-- Fifteen filler rounds (numbers 2..16) without a winner; they are skipped
but keep the rounds list at the required length. -/
def fillerRounds : List JVal :=
  (List.range 15).map (fun i => mkRoundOpen (Int.ofNat i + 2) "t1" "t2")

/-- A match document in the shape of the repository's test fixture. -/
def mkGame (serieTier : String) (players rounds : List JVal) : JVal :=
  .obj [("id", .str "g1"),
        ("begin_at", .str "2024-01-01T00:00:00Z"),
        ("map", .obj [("id", .str "m1")]),
        ("match", .obj [("league", .obj [("id", .str "l1")]),
                        ("tournament", .obj [("id", .str "t7")]),
                        ("serie", .obj [("id", .str "s1"),
                                        ("tier", .str serieTier)])]),
        ("players", .arr players),
        ("rounds", .arr rounds)]

/-- The canonical well-formed match: 10 players, 16 complete rounds. -/
def sampleGame : JVal :=
  mkGame "a" fixturePlayers
    ((List.range 16).map (fun i => mkRound (Int.ofNat i + 1) "t1" "t2" "t1"
      "eliminated"))

/-- Unrecognized series tier and outcome, one counted round. -/
def tierZGame : JVal :=
  mkGame "z" fixturePlayers (mkRound 1 "t1" "t2" "t1" "slip-n-slide" :: fillerRounds)

/-- Recognized series tier `"b"` and outcome `"defused"`, one counted round. -/
def tierBGame : JVal :=
  mkGame "b" fixturePlayers (mkRound 1 "t1" "t2" "t2" "defused" :: fillerRounds)

/-- A match whose first round has both sides equal to the same team t1. -/
def ctTerrGame : JVal :=
  mkGame "a" fixturePlayers (mkRound 1 "t1" "t1" "t1" "eliminated" :: fillerRounds)

/-- Ten players each carrying an explicit `"adr": null` statistic. -/
def nullStatsGame : JVal :=
  mkGame "a"
    ((List.range 10).map (fun i =>
      mkPartWith [("adr", .null)] ("p" ++ toString i)
        (if i < 5 then "t1" else "t2") (if i < 5 then "t2" else "t1")))
    (mkRound 1 "t1" "t2" "t1" "eliminated" :: fillerRounds)

/-- Only nine participation entries. -/
def nineGame : JVal :=
  mkGame "a" (fixturePlayers.take 9)
    ((List.range 16).map (fun i => mkRound (Int.ofNat i + 1) "t1" "t2" "t1"
      "eliminated"))

/-- Only one round. -/
def shortRoundsGame : JVal :=
  mkGame "a" fixturePlayers [mkRound 1 "t1" "t2" "t1" "eliminated"]

/-- Sixteen rounds, but the first carries round number 2. -/
def round2Game : JVal :=
  mkGame "a" fixturePlayers
    ((List.range 16).map (fun i => mkRound (Int.ofNat i + 2) "t1" "t2" "t1"
      "eliminated"))

/-- A match identifier that is present but numeric zero. -/
def zeroIdGame : JVal := .obj [("id", .num 0)]

/-- A map identifier that is present but the empty string. -/
def falsyMapGame : JVal :=
  .obj [("id", .str "g1"), ("begin_at", .str "2024-01-01"),
        ("map", .obj [("id", .str "")])]

/-- A document whose `"map"` field is the number 5: `game.get("map", {})`
returns 5 and the following `.get("id")` raises `AttributeError`. -/
def badMapGame : JVal :=
  .obj [("id", .str "g1"), ("begin_at", .str "2024-01-01"), ("map", .num 5)]

/-- A document with a valid id, timestamp and map whose serie tier is a list:
`{"s": 1, ...}.get(["x"])` hashes the key and raises `TypeError`. -/
def badTierGame : JVal :=
  .obj [("id", .str "g1"), ("begin_at", .str "2024-01-01"),
        ("map", .obj [("id", .str "m1")]),
        ("match", .obj [("serie", .obj [("tier", .arr [.str "x"])])])]

/-- A round that passes every side/number/winner guard but whose outcome
value is a list, so the outcome literal-dict lookup raises `TypeError`. -/
def badOutcomeRound : JVal :=
  .obj [("round", .num 1), ("ct", .str "t1"), ("terrorists", .str "t2"),
        ("winner_team", .str "t1"), ("outcome", .arr [.str "eliminated"])]

/-- A directory whose only file is unreadable/invalid JSON. -/
def badOnlyDir : List FileEntry := [{ name := "bad.json", content := none }]

/-- A directory containing no `*.json` file at all. -/
def noJsonDir : List FileEntry := [{ name := "readme.txt", content := none }]


/-! ## Python equality is an equivalence on hashable values -/

theorem pyEq_symm {a b : JVal} (ha : pyHashable a = true)
    (hb : pyHashable b = true) : pyEq a b = pyEq b a := by
  cases a <;> cases b <;> simp_all [pyEq, pyHashable, eq_comm]

/-- Canonical representative of a hashable value under Python `==`
(booleans collapse to the integers 0/1). -/
def canon : JVal → JVal
  | .bool b => .num (if b then 1 else 0)
  | v => v

theorem pyEq_canon {a b : JVal} (ha : pyHashable a = true)
    (hb : pyHashable b = true) : pyEq a b = true ↔ canon a = canon b := by
  cases a <;> cases b <;> simp_all [pyEq, pyHashable, canon] <;>
    rename_i x y <;> cases x <;> cases y <;> simp

theorem pyEq_trans {a b c : JVal} (ha : pyHashable a = true)
    (hb : pyHashable b = true) (hc : pyHashable c = true)
    (hab : pyEq a b = true) (hbc : pyEq b c = true) : pyEq a c = true := by
  rw [pyEq_canon ha hb] at hab
  rw [pyEq_canon hb hc] at hbc
  rw [pyEq_canon ha hc, hab, hbc]

/-! ## Association-list (Python dict) lemmas -/

theorem alistFind_insert_self {α : Type} (l : List (JVal × α)) (k : JVal) (v : α)
    (hk : pyEq k k = true) : alistFind (alistInsert l k v) k = some v := by
  induction l with
  | nil => simp [alistInsert, alistFind, hk]
  | cons e rest ih =>
      obtain ⟨y, w⟩ := e
      by_cases h : pyEq y k = true
      · simp [alistInsert, alistFind, h]
      · rw [Bool.not_eq_true] at h
        simp [alistInsert, alistFind, h, ih]

theorem alistFind_insert_isSome_mono {α : Type} (l : List (JVal × α))
    (k x : JVal) (v : α) (h : (alistFind l x).isSome = true) :
    (alistFind (alistInsert l k v) x).isSome = true := by
  induction l with
  | nil => simp [alistFind] at h
  | cons e rest ih =>
      obtain ⟨y, w⟩ := e
      by_cases hyk : pyEq y k = true
      · by_cases hyx : pyEq y x = true
        · simp [alistInsert, alistFind, hyk, hyx]
        · rw [Bool.not_eq_true] at hyx
          simp_all [alistInsert, alistFind, hyk, hyx]
      · rw [Bool.not_eq_true] at hyk
        by_cases hyx : pyEq y x = true
        · simp [alistInsert, alistFind, hyk, hyx]
        · rw [Bool.not_eq_true] at hyx
          simp_all [alistInsert, alistFind, hyk, hyx]

theorem alistFind_insert_of_ne {α : Type} (l : List (JVal × α)) (k x : JVal)
    (v : α) (hl : ∀ e ∈ l, pyHashable e.1 = true) (hk : pyHashable k = true)
    (hx : pyHashable x = true) (hne : pyEq k x = false) :
    alistFind (alistInsert l k v) x = alistFind l x := by
  induction l with
  | nil => simp [alistInsert, alistFind, hne]
  | cons e rest ih =>
      obtain ⟨y, w⟩ := e
      have hy : pyHashable y = true := hl (y, w) (by simp)
      have hrest : ∀ e ∈ rest, pyHashable e.1 = true :=
        fun e he => hl e (by simp [he])
      by_cases hyk : pyEq y k = true
      · have hyx : pyEq y x = false := by
          by_contra hcon
          rw [Bool.not_eq_false] at hcon
          have : pyEq k x = true :=
            pyEq_trans hk hy hx (by rw [pyEq_symm hy hk] at hyk; exact hyk) hcon
          rw [this] at hne
          simp at hne
        simp [alistInsert, alistFind, hyk, hyx]
      · rw [Bool.not_eq_true] at hyk
        by_cases hyx : pyEq y x = true
        · simp [alistInsert, alistFind, hyk, hyx]
        · rw [Bool.not_eq_true] at hyx
          simp [alistInsert, alistFind, hyk, hyx, ih hrest]

theorem alistFind_mem {α : Type} (l : List (JVal × α)) (k : JVal) (v : α)
    (h : alistFind l k = some v) : ∃ y, (y, v) ∈ l := by
  induction l with
  | nil => simp [alistFind] at h
  | cons e rest ih =>
      obtain ⟨y, w⟩ := e
      by_cases hyk : pyEq y k = true
      · simp [alistFind, hyk] at h
        exact ⟨y, by simp [h]⟩
      · rw [Bool.not_eq_true] at hyk
        simp [alistFind, hyk] at h
        obtain ⟨y', hy'⟩ := ih h
        exact ⟨y', by simp [hy']⟩

theorem alistInsert_keys {α : Type} {P : JVal → Prop} (l : List (JVal × α))
    (k : JVal) (v : α) (hl : ∀ e ∈ l, P e.1) (hk : P k) :
    ∀ e ∈ alistInsert l k v, P e.1 := by
  induction l with
  | nil =>
      intro e he
      simp [alistInsert] at he
      simp [he, hk]
  | cons e rest ih =>
      obtain ⟨y, w⟩ := e
      have hy : P y := hl (y, w) (by simp)
      have hrest : ∀ e ∈ rest, P e.1 := fun e he => hl e (by simp [he])
      by_cases hyk : pyEq y k = true
      · intro e he
        rw [alistInsert] at he
        simp only [hyk, if_true, List.mem_cons] at he
        rcases he with he | he
        · simp [he, hy]
        · exact hrest e he
      · rw [Bool.not_eq_true] at hyk
        intro e he
        rw [alistInsert] at he
        simp only [hyk, Bool.false_eq_true, if_false, List.mem_cons] at he
        rcases he with he | he
        · simp [he, hy]
        · exact ih hrest e he

theorem alistInsert_values {α : Type} {P : α → Prop} (l : List (JVal × α))
    (k : JVal) (v : α) (hl : ∀ e ∈ l, P e.2) (hv : P v) :
    ∀ e ∈ alistInsert l k v, P e.2 := by
  induction l with
  | nil =>
      intro e he
      simp [alistInsert] at he
      simp [he, hv]
  | cons e rest ih =>
      obtain ⟨y, w⟩ := e
      have hy : P w := hl (y, w) (by simp)
      have hrest : ∀ e ∈ rest, P e.2 := fun e he => hl e (by simp [he])
      by_cases hyk : pyEq y k = true
      · intro e he
        rw [alistInsert] at he
        simp only [hyk, if_true, List.mem_cons] at he
        rcases he with he | he
        · simp [he, hv]
        · exact hrest e he
      · rw [Bool.not_eq_true] at hyk
        intro e he
        rw [alistInsert] at he
        simp only [hyk, Bool.false_eq_true, if_false, List.mem_cons] at he
        rcases he with he | he
        · simp [he, hy]
        · exact ih hrest e he

theorem ddAppend_mem (l : List (JVal × List JVal)) (k x : JVal)
    (e : JVal × List JVal) (he : e ∈ ddAppend l k x) (q : JVal) (hq : q ∈ e.2) :
    (∃ e' ∈ l, q ∈ e'.2) ∨ q = x := by
  induction l with
  | nil =>
      simp [ddAppend] at he
      rw [he] at hq
      simp at hq
      exact Or.inr hq
  | cons e0 rest ih =>
      obtain ⟨y, ys⟩ := e0
      by_cases hyk : pyEq y k = true
      · rw [ddAppend] at he
        simp only [hyk, if_true, List.mem_cons] at he
        rcases he with he | he
        · rw [he] at hq
          simp at hq
          rcases hq with hq | hq
          · exact Or.inl ⟨(y, ys), by simp, hq⟩
          · exact Or.inr hq
        · exact Or.inl ⟨e, by simp [he], hq⟩
      · rw [Bool.not_eq_true] at hyk
        rw [ddAppend] at he
        simp only [hyk, Bool.false_eq_true, if_false, List.mem_cons] at he
        rcases he with he | he
        · rw [he] at hq
          exact Or.inl ⟨(y, ys), by simp, hq⟩
        · rcases ih he with ⟨e', he', hq'⟩ | h
          · exact Or.inl ⟨e', by simp [he'], hq'⟩
          · exact Or.inr h
theorem flatten_game_eq_rowsForTeams
    (game game_id bv mapVal map_id matchVal leagueVal league_id serieVal serie_id
      tierVal tournVal tournament_id players rounds round0 round0Num : JVal)
    (d : String) (stv : Option Int) (playerList roundList : List JVal)
    (st : BuildState) (nR : Nat)
    (h1 : pyGet game "id" = .ok game_id) (h2 : truthy game_id = true)
    (h3 : pyGet game "begin_at" = .ok bv) (h4 : parseDate bv = some d)
    (h5 : pyGetD game "map" (.obj []) = .ok mapVal)
    (h6 : pyGet mapVal "id" = .ok map_id) (h7 : truthy map_id = true)
    (h8 : pyGetD game "match" (.obj []) = .ok matchVal)
    (h9 : pyGetD matchVal "league" (.obj []) = .ok leagueVal)
    (h10 : pyGet leagueVal "id" = .ok league_id)
    (h11 : pyGetD matchVal "serie" (.obj []) = .ok serieVal)
    (h12 : pyGet serieVal "id" = .ok serie_id)
    (h13 : pyGet serieVal "tier" = .ok tierVal)
    (h13b : tierMap tierVal = .ok stv)
    (h14 : pyGetD matchVal "tournament" (.obj []) = .ok tournVal)
    (h15 : pyGet tournVal "id" = .ok tournament_id)
    (h16 : pyGetD game "players" (.arr []) = .ok players)
    (h17 : pyLen players = .ok 10)
    (h18 : pyIter players = .ok playerList)
    (h19 : playerList.foldlM buildStep ⟨[], [], []⟩ = .ok st)
    (h20 : pyGetD game "rounds" (.arr []) = .ok rounds)
    (h21 : pyLen rounds = .ok nR) (h22 : 16 ≤ nR) (h23 : truthy rounds = true)
    (h24 : pyIndex rounds 0 = .ok round0)
    (h25 : pyGet round0 "round" = .ok round0Num)
    (h26 : pyEq round0Num (.num 1) = true)
    (h27 : pyIter rounds = .ok roundList) :
    flatten_game game =
      rowsForTeams
        ⟨game_id, d, map_id, league_id, serie_id, stv, tournament_id⟩
        st.stats st.teamPlayers st.teams roundList st.teamPlayers := by
  unfold flatten_game flatten_game_players
  have hnR : ¬ nR < 16 := by omega
  simp only [h1, h2, h3, h4, h5, h6, h7, h8, h9, h10, h11, h12, h13, h13b,
    h14, h15, h16, h17, h18, h19, h20, h21, h23, h24, h25, h26, h27, hnR,
    Bool.not_true, Bool.false_eq_true, if_false, ite_false, ne_eq,
    not_true_eq_false, not_false_eq_true, if_true, ite_true, lt_self_iff_false]

/-! ## Round-level evaluation lemmas -/

def isObjVal : JVal → Bool
  | .obj _ => true
  | _ => false

def roundCT (rnd : JVal) : JVal :=
  match rnd with
  | .obj rf => (lookupStr rf "ct").getD .null
  | _ => .null

def roundTerr (rnd : JVal) : JVal :=
  match rnd with
  | .obj rf => (lookupStr rf "terrorists").getD .null
  | _ => .null

def roundNumOf (rnd : JVal) : JVal :=
  match rnd with
  | .obj rf => (lookupStr rf "round").getD .null
  | _ => .null

def roundWin (rnd : JVal) : JVal :=
  match rnd with
  | .obj rf => (lookupStr rf "winner_team").getD .null
  | _ => .null

def roundOutcome (rnd : JVal) : JVal :=
  match rnd with
  | .obj rf => (lookupStr rf "outcome").getD .null
  | _ => .null

/-- The flattener's per-round acceptance test for the perspective pair
`(t, o)` (src/main.py lines 156-171): both side ids truthy, a truthy round
number, both side ids `in [t, o]`, and a truthy winner `in [t, o]`. -/
def roundFor (t o rnd : JVal) : Bool :=
  isObjVal rnd &&
  truthy (roundCT rnd) && truthy (roundTerr rnd) &&
  truthy (roundNumOf rnd) &&
  pyMem (roundCT rnd) [t, o] && pyMem (roundTerr rnd) [t, o] &&
  truthy (roundWin rnd) && pyMem (roundWin rnd) [t, o]

/-- The row the flattener appends for one accepted combination, with the
round number already converted by `int(...)`. -/
def rowOf (ctx : GameCtx) (stats : Stats) (t o p po rnd : JVal) (n : Int) :
    Row :=
  { game_id := ctx.game_id
    begin_at := ctx.begin_at
    map_id := ctx.map_id
    league_id := ctx.league_id
    serie_id := ctx.serie_id
    serie_tier := ctx.serie_tier
    tournament_id := ctx.tournament_id
    team_id := t
    team_opponent_id := o
    player_id := p
    player_opponent_id := po
    adr := stats.adr
    kast := stats.kast
    rating := stats.rating
    kills := stats.kills
    deaths := stats.deaths
    assists := stats.assists
    headshots := stats.headshots
    flash_assists := stats.flash_assists
    first_kills_diff := stats.first_kills_diff
    k_d_diff := stats.k_d_diff
    round := n
    is_ct := if pyEq t (roundCT rnd) then 1 else 0
    outcome := outcomeTable (roundOutcome rnd)
    win := if pyEq (roundWin rnd) t then 1 else 0 }

theorem processRound_accepted (ctx : GameCtx) (statsMap : List (JVal × Stats))
    (t o p po rnd : JVal) (stats : Stats) (n : Int)
    (hr : roundFor t o rnd = true) (hn : roundNumOf rnd = .num n)
    (hs : alistFind statsMap p = some stats)
    (ho : pyHashable (roundOutcome rnd) = true) :
    processRound ctx statsMap t o p po rnd =
      .ok (some (rowOf ctx stats t o p po rnd n)) := by
  cases rnd with
  | obj rf =>
      simp only [roundFor, isObjVal, roundCT, roundTerr, roundNumOf, roundWin,
        Bool.and_eq_true, true_and] at hr
      obtain ⟨⟨⟨⟨⟨⟨hct, hterr⟩, hnum⟩, hmemct⟩, hmemterr⟩, hwin⟩, hmemwin⟩ := hr
      simp only [roundNumOf] at hn
      rw [hn] at hnum
      simp only [roundOutcome] at ho
      simp only [processRound, hct, hterr, hnum, hmemct, hmemterr, hwin,
        hmemwin, hn, hs, Bool.and_self, Bool.not_true, Bool.false_eq_true,
        if_false, pyInt, outcomeMap, ho, eq_self_iff_true, if_true, rowOf,
        roundCT, roundTerr, roundWin, roundOutcome]
  | null => simp [roundFor, isObjVal] at hr
  | bool b => simp [roundFor, isObjVal] at hr
  | num m => simp [roundFor, isObjVal] at hr
  | str s => simp [roundFor, isObjVal] at hr
  | arr xs => simp [roundFor, isObjVal] at hr

theorem processRound_skipped (ctx : GameCtx) (statsMap : List (JVal × Stats))
    (t o p po rnd : JVal) (hobj : isObjVal rnd = true)
    (hr : roundFor t o rnd = false) :
    processRound ctx statsMap t o p po rnd = .ok none := by
  cases rnd with
  | obj rf =>
      simp only [roundFor, isObjVal, roundCT, roundTerr, roundNumOf, roundWin,
        Bool.and_eq_true, true_and, Bool.and_eq_false_iff] at hr
      by_cases hct : truthy ((lookupStr rf "ct").getD .null) = true
      · by_cases hterr : truthy ((lookupStr rf "terrorists").getD .null) = true
        · by_cases hnum : truthy ((lookupStr rf "round").getD .null) = true
          · by_cases hmct : pyMem ((lookupStr rf "ct").getD .null)
                [t, o] = true
            · by_cases hmterr : pyMem ((lookupStr rf "terrorists").getD .null)
                  [t, o] = true
              · by_cases hwin : truthy ((lookupStr rf "winner_team").getD
                    .null) = true
                · by_cases hmwin : pyMem ((lookupStr rf "winner_team").getD
                      .null) [t, o] = true
                  · simp [hct, hterr, hnum, hmct, hmterr, hwin, hmwin] at hr
                  · rw [Bool.not_eq_true] at hmwin
                    simp [processRound, hct, hterr, hnum, hmct, hmterr, hwin,
                      hmwin]
                · rw [Bool.not_eq_true] at hwin
                  simp [processRound, hct, hterr, hnum, hmct, hmterr, hwin]
              · rw [Bool.not_eq_true] at hmterr
                simp [processRound, hct, hterr, hnum, hmct, hmterr]
            · rw [Bool.not_eq_true] at hmct
              simp [processRound, hct, hterr, hnum, hmct]
          · rw [Bool.not_eq_true] at hnum
            simp [processRound, hct, hterr, hnum]
        · rw [Bool.not_eq_true] at hterr
          simp [processRound, hct, hterr]
      · rw [Bool.not_eq_true] at hct
        simp [processRound, hct]
  | null => simp [isObjVal] at hobj
  | bool b => simp [isObjVal] at hobj
  | num m => simp [isObjVal] at hobj
  | str s => simp [isObjVal] at hobj
  | arr xs => simp [isObjVal] at hobj

/-! ## Loop evaluation lemmas -/

theorem rowsForRounds_eval (ctx : GameCtx) (statsMap : List (JVal × Stats))
    (t o p po : JVal) (stats : Stats) (rs : List JVal)
    (hobj : ∀ rnd ∈ rs, isObjVal rnd = true)
    (hnum : ∀ rnd ∈ rs, truthy (roundNumOf rnd) = true →
      ∃ n : Int, roundNumOf rnd = .num n)
    (hout : ∀ rnd ∈ rs, roundFor t o rnd = true →
      pyHashable (roundOutcome rnd) = true)
    (hs : alistFind statsMap p = some stats) :
    ∃ l, rowsForRounds ctx statsMap t o p po rs = .ok l ∧
      l.length = rs.countP (fun rnd => roundFor t o rnd) ∧
      ∀ r ∈ l, ∃ rnd ∈ rs, ∃ n : Int, roundFor t o rnd = true ∧
        roundNumOf rnd = .num n ∧ r = rowOf ctx stats t o p po rnd n := by
  induction rs with
  | nil => exact ⟨[], rfl, by simp, by simp⟩
  | cons rnd rest ih =>
      obtain ⟨l, hl, hlen, hmem⟩ := ih (fun x hx => hobj x (by simp [hx]))
        (fun x hx => hnum x (by simp [hx]))
        (fun x hx => hout x (by simp [hx]))
      by_cases hr : roundFor t o rnd = true
      · have htr : truthy (roundNumOf rnd) = true := by
          simp only [roundFor, Bool.and_eq_true] at hr
          exact hr.1.1.1.1.2
        obtain ⟨n, hn⟩ := hnum rnd (by simp) htr
        refine ⟨rowOf ctx stats t o p po rnd n :: l, ?_, ?_, ?_⟩
        · rw [rowsForRounds,
            processRound_accepted ctx statsMap t o p po rnd stats n hr hn hs
              (hout rnd (by simp) hr),
            hl]
          simp
        · simp [hlen, hr, List.countP_cons]
        · intro r hrr
          rcases List.mem_cons.mp hrr with hrr | hrr
          · exact ⟨rnd, by simp, n, hr, hn, hrr⟩
          · obtain ⟨rnd', hrnd', n', h1, h2, h3⟩ := hmem r hrr
            exact ⟨rnd', by simp [hrnd'], n', h1, h2, h3⟩
      · rw [Bool.not_eq_true] at hr
        refine ⟨l, ?_, ?_, ?_⟩
        · rw [rowsForRounds,
            processRound_skipped ctx statsMap t o p po rnd (hobj rnd (by simp))
              hr, hl]
          simp
        · simp [hlen, hr, List.countP_cons]
        · intro r hrr
          obtain ⟨rnd', hrnd', n', h1, h2, h3⟩ := hmem r hrr
          exact ⟨rnd', by simp [hrnd'], n', h1, h2, h3⟩

theorem rowsForOpp_eval (ctx : GameCtx) (statsMap : List (JVal × Stats))
    (t o p : JVal) (stats : Stats) (rs : List JVal) (pos : List JVal)
    (hobj : ∀ rnd ∈ rs, isObjVal rnd = true)
    (hnum : ∀ rnd ∈ rs, truthy (roundNumOf rnd) = true →
      ∃ n : Int, roundNumOf rnd = .num n)
    (hout : ∀ rnd ∈ rs, roundFor t o rnd = true →
      pyHashable (roundOutcome rnd) = true)
    (hs : alistFind statsMap p = some stats) :
    ∃ l, rowsForOpp ctx statsMap t o p rs pos = .ok l ∧
      l.length = pos.length * rs.countP (fun rnd => roundFor t o rnd) ∧
      ∀ r ∈ l, ∃ po ∈ pos, ∃ rnd ∈ rs, ∃ n : Int, roundFor t o rnd = true ∧
        roundNumOf rnd = .num n ∧ r = rowOf ctx stats t o p po rnd n := by
  induction pos with
  | nil => exact ⟨[], rfl, by simp, by simp⟩
  | cons po rest ih =>
      obtain ⟨l, hl, hlen, hmem⟩ := ih
      obtain ⟨l0, hl0, hlen0, hmem0⟩ :=
        rowsForRounds_eval ctx statsMap t o p po stats rs hobj hnum hout hs
      refine ⟨l0 ++ l, ?_, ?_, ?_⟩
      · rw [rowsForOpp, hl0, hl]
      · simp [hlen, hlen0, Nat.succ_mul, Nat.add_comm]
      · intro r hrr
        rcases List.mem_append.mp hrr with hrr | hrr
        · obtain ⟨rnd', hrnd', n', h1, h2, h3⟩ := hmem0 r hrr
          exact ⟨po, by simp, rnd', hrnd', n', h1, h2, h3⟩
        · obtain ⟨po', hpo', rest'⟩ := hmem r hrr
          exact ⟨po', by simp [hpo'], rest'⟩

theorem rowsForPlayers_eval (ctx : GameCtx) (statsMap : List (JVal × Stats))
    (t o : JVal) (rs pos : List JVal) (pids : List JVal)
    (hobj : ∀ rnd ∈ rs, isObjVal rnd = true)
    (hnum : ∀ rnd ∈ rs, truthy (roundNumOf rnd) = true →
      ∃ n : Int, roundNumOf rnd = .num n)
    (hout : ∀ rnd ∈ rs, roundFor t o rnd = true →
      pyHashable (roundOutcome rnd) = true)
    (hs : ∀ p ∈ pids, (alistFind statsMap p).isSome = true) :
    ∃ l, rowsForPlayers ctx statsMap t o pos rs pids = .ok l ∧
      l.length = pids.length * (pos.length *
        rs.countP (fun rnd => roundFor t o rnd)) ∧
      ∀ r ∈ l, ∃ p ∈ pids, ∃ po ∈ pos, ∃ rnd ∈ rs, ∃ n : Int, ∃ stats : Stats,
        alistFind statsMap p = some stats ∧ roundFor t o rnd = true ∧
        roundNumOf rnd = .num n ∧ r = rowOf ctx stats t o p po rnd n := by
  induction pids with
  | nil => exact ⟨[], rfl, by simp, by simp⟩
  | cons p rest ih =>
      obtain ⟨l, hl, hlen, hmem⟩ := ih (fun x hx => hs x (by simp [hx]))
      have hsp := hs p (by simp)
      obtain ⟨stats, hstats⟩ := Option.isSome_iff_exists.mp hsp
      obtain ⟨l0, hl0, hlen0, hmem0⟩ :=
        rowsForOpp_eval ctx statsMap t o p stats rs pos hobj hnum hout hstats
      refine ⟨l0 ++ l, ?_, ?_, ?_⟩
      · rw [rowsForPlayers, hl0, hl]
      · simp [hlen, hlen0, Nat.succ_mul, Nat.add_comm]
      · intro r hrr
        rcases List.mem_append.mp hrr with hrr | hrr
        · obtain ⟨po', hpo', rnd', hrnd', n', h1, h2, h3⟩ := hmem0 r hrr
          exact ⟨p, by simp, po', hpo', rnd', hrnd', n', stats, hstats, h1, h2,
            h3⟩
        · obtain ⟨p', hp', rest'⟩ := hmem r hrr
          exact ⟨p', by simp [hp'], rest'⟩

/-! ## Participation-loop evaluation lemmas -/

theorem isObjVal_exists {v : JVal} (h : isObjVal v = true) :
    ∃ fs, v = .obj fs := by
  cases v <;> simp_all [isObjVal]

/-- `p.get(k, {})` on a participation entry. -/
def subField (p : JVal) (k : String) : JVal :=
  match p with
  | .obj pf => (lookupStr pf k).getD (.obj [])
  | _ => .null

/-- `p.get(k, {}).get("id")`, read off the raw entry. -/
def subId (p : JVal) (k : String) : JVal :=
  match subField p k with
  | .obj f => (lookupStr f "id").getD .null
  | _ => .null

def partPid (p : JVal) : JVal := subId p "player"
def partTid (p : JVal) : JVal := subId p "team"
def partOid (p : JVal) : JVal := subId p "opponent"

def partFields (p : JVal) : List (String × JVal) :=
  match p with
  | .obj pf => pf
  | _ => []

/-- A fully usable participation entry for team `t` against `o`: dict-shaped
with dict-shaped player/team/opponent, a truthy hashable player id, team id
exactly `t` and opponent id exactly `o`. -/
def partFor (p t o : JVal) : Bool :=
  isObjVal p && isObjVal (subField p "player") && isObjVal (subField p "team") &&
  isObjVal (subField p "opponent") &&
  truthy (partPid p) && pyHashable (partPid p) &&
  (partTid p == t) && (partOid p == o)

/-- The player ids of the entries declaring team `t`, in list order. -/
def teamIds (ps : List JVal) (t : JVal) : List JVal :=
  (ps.filter (fun p => partTid p == t)).map partPid

theorem buildStep_part (st : BuildState) (p A B : JVal)
    (hp : partFor p A B = true) (hA : truthy A = true) (hB : truthy B = true)
    (hhA : pyHashable A = true) :
    buildStep st p = .ok
      { stats := alistInsert st.stats (partPid p) (statsOfFields (partFields p))
        teamPlayers := ddAppend st.teamPlayers A (partPid p)
        teams := alistInsert st.teams A B } := by
  obtain ⟨pf, rfl⟩ := isObjVal_exists (by
    simp only [partFor, Bool.and_eq_true] at hp; exact hp.1.1.1.1.1.1.1)
  simp only [partFor, Bool.and_eq_true, beq_iff_eq] at hp
  obtain ⟨⟨⟨⟨⟨⟨⟨-, hpl⟩, htm⟩, hop⟩, htr⟩, hhs⟩, htid⟩, hoid⟩ := hp
  obtain ⟨plf, hplf⟩ := isObjVal_exists hpl
  obtain ⟨tmf, htmf⟩ := isObjVal_exists htm
  obtain ⟨opf, hopf⟩ := isObjVal_exists hop
  simp only [subField] at hplf htmf hopf
  have epid : partPid (.obj pf) = (lookupStr plf "id").getD .null := by
    simp [partPid, subId, subField, hplf]
  have etid : (lookupStr tmf "id").getD .null = A := by
    rw [← htid]; simp [partTid, subId, subField, htmf]
  have eoid : (lookupStr opf "id").getD .null = B := by
    rw [← hoid]; simp [partOid, subId, subField, hopf]
  rw [epid] at htr hhs
  simp only [buildStep, hplf, htmf, hopf, pyGet, etid, eoid, htr, hA, hB,
    Bool.and_self, Bool.not_true, Bool.false_eq_true, if_false, hhs, hhA,
    partPid, subId, subField, partFields]

def goodState (A B : JVal) (as bs : List JVal) (st : BuildState) : Prop :=
  (st.teamPlayers = [] ∧ st.teams = [] ∧ as = [] ∧ bs = []) ∨
  (st.teamPlayers = [(A, as)] ∧ st.teams = [(A, B)] ∧ bs = []) ∨
  (st.teamPlayers = [(B, bs)] ∧ st.teams = [(B, A)] ∧ as = []) ∨
  (st.teamPlayers = [(A, as), (B, bs)] ∧ st.teams = [(A, B), (B, A)]) ∨
  (st.teamPlayers = [(B, bs), (A, as)] ∧ st.teams = [(B, A), (A, B)])

def statsKeys (st : BuildState) (l : List JVal) : Prop :=
  ∀ x ∈ l, (alistFind st.stats x).isSome = true

theorem buildFold (A B : JVal) (hA : truthy A = true) (hB : truthy B = true)
    (hhA : pyHashable A = true) (hhB : pyHashable B = true)
    (hAB : pyEq A B = false) (hBA : pyEq B A = false) :
    ∀ (ps : List JVal) (st : BuildState) (as bs : List JVal),
      (∀ p ∈ ps, partFor p A B = true ∨ partFor p B A = true) →
      goodState A B as bs st →
      statsKeys st (as ++ bs) →
      ∃ st', ps.foldlM buildStep st = .ok st' ∧
        goodState A B (as ++ teamIds ps A) (bs ++ teamIds ps B) st' ∧
        statsKeys st' ((as ++ teamIds ps A) ++ (bs ++ teamIds ps B)) := by
  have hneAB : A ≠ B := ne_of_pyEq_false hhA hAB
  have hneBA : B ≠ A := ne_of_pyEq_false hhB hBA
  intro ps
  induction ps with
  | nil =>
      intro st as bs _ hg hk
      exact ⟨st, by simp [List.foldlM, pure, Except.pure],
        by simpa [teamIds] using hg, by simpa [teamIds] using hk⟩
  | cons p ps ih =>
      intro st as bs hps hg hk
      have hpidfacts : ∀ T O, partFor p T O = true →
          truthy (partPid p) = true ∧ pyHashable (partPid p) = true ∧
          partTid p = T ∧ partOid p = O := by
        intro T O hp
        simp only [partFor, Bool.and_eq_true, beq_iff_eq] at hp
        exact ⟨hp.1.1.1.2, hp.1.1.2, hp.1.2, hp.2⟩
      rcases hps p (by simp) with hp | hp
      · -- entry on team A
        obtain ⟨htr, hhs, htid, hoid⟩ := hpidfacts A B hp
        have hstep := buildStep_part st p A B hp hA hB hhA
        have hidsA : teamIds (p :: ps) A = partPid p :: teamIds ps A := by
          simp [teamIds, htid]
        have hidsB : teamIds (p :: ps) B = teamIds ps B := by
          simp [teamIds, htid, hneAB]
        have hg1 : goodState A B (as ++ [partPid p]) bs
            { stats := alistInsert st.stats (partPid p)
                (statsOfFields (partFields p))
              teamPlayers := ddAppend st.teamPlayers A (partPid p)
              teams := alistInsert st.teams A B } := by
          have hAA : pyEq A A = true := pyEq_refl A hhA
          rcases hg with ⟨e1, e2, e3, e4⟩ | ⟨e1, e2, e3⟩ | ⟨e1, e2, e3⟩ |
            ⟨e1, e2⟩ | ⟨e1, e2⟩
          · exact Or.inr (Or.inl (by
              simp [goodState, e1, e2, e3, e4, ddAppend, alistInsert]))
          · exact Or.inr (Or.inl (by
              simp [goodState, e1, e2, e3, ddAppend, alistInsert, hAA]))
          · refine Or.inr (Or.inr (Or.inr (Or.inr ?_)))
            simp [goodState, e1, e2, e3, ddAppend, alistInsert, hBA]
          · exact Or.inr (Or.inr (Or.inr (Or.inl (by
              simp [goodState, e1, e2, ddAppend, alistInsert, hAA]))))
          · exact Or.inr (Or.inr (Or.inr (Or.inr (by
              simp [goodState, e1, e2, ddAppend, alistInsert, hAA, hBA]))))
        have hk1 : statsKeys
            { stats := alistInsert st.stats (partPid p)
                (statsOfFields (partFields p))
              teamPlayers := ddAppend st.teamPlayers A (partPid p)
              teams := alistInsert st.teams A B } ((as ++ [partPid p]) ++ bs) := by
          intro x hx
          simp only [List.mem_append, List.mem_singleton] at hx
          rcases hx with (hx | hx) | hx
          · exact alistFind_insert_isSome_mono _ _ _ _ (hk x (by simp [hx]))
          · subst hx
            rw [alistFind_insert_self _ _ _ (pyEq_refl _ hhs)]
            rfl
          · exact alistFind_insert_isSome_mono _ _ _ _ (hk x (by simp [hx]))
        obtain ⟨st', h1, h2, h3⟩ := ih _ (as ++ [partPid p]) bs
          (fun q hq => hps q (by simp [hq])) hg1 hk1
        refine ⟨st', ?_, ?_, ?_⟩
        · rw [List.foldlM_cons, hstep]
          simpa using h1
        · rw [hidsA, hidsB]
          have : as ++ partPid p :: teamIds ps A =
              (as ++ [partPid p]) ++ teamIds ps A := by simp
          rw [this]
          exact h2
        · rw [hidsA, hidsB]
          intro x hx
          apply h3
          simp only [List.mem_append, List.mem_cons] at hx ⊢
          tauto
      · -- entry on team B
        obtain ⟨htr, hhs, htid, hoid⟩ := hpidfacts B A hp
        have hstep := buildStep_part st p B A hp hB hA hhB
        have hidsA : teamIds (p :: ps) A = teamIds ps A := by
          simp [teamIds, htid, hneBA]
        have hidsB : teamIds (p :: ps) B = partPid p :: teamIds ps B := by
          simp [teamIds, htid]
        have hg1 : goodState A B as (bs ++ [partPid p])
            { stats := alistInsert st.stats (partPid p)
                (statsOfFields (partFields p))
              teamPlayers := ddAppend st.teamPlayers B (partPid p)
              teams := alistInsert st.teams B A } := by
          have hBB : pyEq B B = true := pyEq_refl B hhB
          rcases hg with ⟨e1, e2, e3, e4⟩ | ⟨e1, e2, e3⟩ | ⟨e1, e2, e3⟩ |
            ⟨e1, e2⟩ | ⟨e1, e2⟩
          · exact Or.inr (Or.inr (Or.inl (by
              simp [goodState, e1, e2, e3, e4, ddAppend, alistInsert])))
          · exact Or.inr (Or.inr (Or.inr (Or.inl (by
              simp [goodState, e1, e2, e3, ddAppend, alistInsert, hAB]))))
          · exact Or.inr (Or.inr (Or.inl (by
              simp [goodState, e1, e2, e3, ddAppend, alistInsert, hBB])))
          · exact Or.inr (Or.inr (Or.inr (Or.inl (by
              simp [goodState, e1, e2, ddAppend, alistInsert, hAB, hBB]))))
          · exact Or.inr (Or.inr (Or.inr (Or.inr (by
              simp [goodState, e1, e2, ddAppend, alistInsert, hBB]))))
        have hk1 : statsKeys
            { stats := alistInsert st.stats (partPid p)
                (statsOfFields (partFields p))
              teamPlayers := ddAppend st.teamPlayers B (partPid p)
              teams := alistInsert st.teams B A } (as ++ (bs ++ [partPid p])) := by
          intro x hx
          simp only [List.mem_append, List.mem_singleton] at hx
          rcases hx with hx | (hx | hx)
          · exact alistFind_insert_isSome_mono _ _ _ _ (hk x (by simp [hx]))
          · exact alistFind_insert_isSome_mono _ _ _ _ (hk x (by simp [hx]))
          · subst hx
            rw [alistFind_insert_self _ _ _ (pyEq_refl _ hhs)]
            rfl
        obtain ⟨st', h1, h2, h3⟩ := ih _ as (bs ++ [partPid p])
          (fun q hq => hps q (by simp [hq])) hg1 hk1
        refine ⟨st', ?_, ?_, ?_⟩
        · rw [List.foldlM_cons, hstep]
          simpa using h1
        · rw [hidsA, hidsB]
          have : bs ++ partPid p :: teamIds ps B =
              (bs ++ [partPid p]) ++ teamIds ps B := by simp
          rw [this]
          exact h2
        · rw [hidsA, hidsB]
          intro x hx
          apply h3
          simp only [List.mem_append, List.mem_cons] at hx ⊢
          tauto

/-! ## The team loop on a two-team state -/

theorem rowsForTeams_pair (ctx : GameCtx) (statsMap : List (JVal × Stats))
    (X Y : JVal) (xIds yIds : List JVal) (rs : List JVal)
    (hX : truthy X = true) (hY : truthy Y = true)
    (hhX : pyHashable X = true) (hhY : pyHashable Y = true)
    (hXY : pyEq X Y = false) (hYX : pyEq Y X = false)
    (hdx : distinctCount xIds = 5) (hdy : distinctCount yIds = 5)
    (hobj : ∀ rnd ∈ rs, isObjVal rnd = true)
    (hnum : ∀ rnd ∈ rs, truthy (roundNumOf rnd) = true →
      ∃ n : Int, roundNumOf rnd = .num n)
    (hout : ∀ rnd ∈ rs, pyHashable (roundOutcome rnd) = true)
    (hkx : ∀ p ∈ xIds, (alistFind statsMap p).isSome = true)
    (hky : ∀ p ∈ yIds, (alistFind statsMap p).isSome = true) :
    ∃ l, rowsForTeams ctx statsMap [(X, xIds), (Y, yIds)] [(X, Y), (Y, X)] rs
        [(X, xIds), (Y, yIds)] = .ok l ∧
      l.length =
        xIds.length * (yIds.length * rs.countP (fun rnd => roundFor X Y rnd)) +
        yIds.length * (xIds.length * rs.countP (fun rnd => roundFor Y X rnd)) ∧
      ∀ r ∈ l, ∃ t o p po rnd, ∃ n : Int, ∃ stats : Stats,
        alistFind statsMap p = some stats ∧ rnd ∈ rs ∧
        roundFor t o rnd = true ∧ roundNumOf rnd = .num n ∧
        r = rowOf ctx stats t o p po rnd n ∧
        ((t = X ∧ o = Y) ∨ (t = Y ∧ o = X)) := by
  obtain ⟨l1, hl1, hlen1, hmem1⟩ :=
    rowsForPlayers_eval ctx statsMap X Y rs yIds xIds hobj hnum
      (fun rnd hr _ => hout rnd hr) hkx
  obtain ⟨l2, hl2, hlen2, hmem2⟩ :=
    rowsForPlayers_eval ctx statsMap Y X rs xIds yIds hobj hnum
      (fun rnd hr _ => hout rnd hr) hky
  refine ⟨l1 ++ (l2 ++ []), ?_, ?_, ?_⟩
  · simp only [rowsForTeams, alistFind, hdx, hdy, pyEq_refl X hhX,
      pyEq_refl Y hhY, hXY, hYX, hhX, hhY, hX, hY, hl1, hl2, ne_eq,
      not_true_eq_false, Bool.false_eq_true, if_false, if_true,
      Option.getD_some, Bool.not_true, Bool.not_false, if_false, reduceCtorEq]
  · simp only [List.length_append, List.length_nil, Nat.add_zero, hlen1, hlen2]
  · intro r hr
    rcases List.mem_append.mp hr with hr | hr
    · obtain ⟨p, hp, po, hpo, rnd, hrnd, n, stats, h1, h2, h3, h4⟩ := hmem1 r hr
      exact ⟨X, Y, p, po, rnd, n, stats, h1, hrnd, h2, h3, h4, Or.inl ⟨rfl, rfl⟩⟩
    · rcases List.mem_append.mp hr with hr | hr
      · obtain ⟨p, hp, po, hpo, rnd, hrnd, n, stats, h1, h2, h3, h4⟩ :=
          hmem2 r hr
        exact ⟨Y, X, p, po, rnd, n, stats, h1, hrnd, h2, h3, h4,
          Or.inr ⟨rfl, rfl⟩⟩
      · simp at hr

/-! ## Well-formed match documents -/

def optObj : Option JVal → Bool
  | none => true
  | some (.obj _) => true
  | some _ => false

theorem optObj_getD {ov : Option JVal} (h : optObj ov = true) :
    isObjVal (ov.getD (.obj [])) = true := by
  match ov with
  | none => simp [isObjVal]
  | some (.obj _) => simp [isObjVal]
  | some .null | some (.bool _) | some (.num _) | some (.str _)
  | some (.arr _) => simp [optObj] at h

/-- The nested match metadata is dict-shaped enough for the field reads not
to raise. -/
def metaOk (m : JVal) : Bool :=
  match m with
  | .obj mf => optObj (lookupStr mf "league") && optObj (lookupStr mf "serie") &&
      optObj (lookupStr mf "tournament")
  | _ => false

/-- The serie's tier value is hashable, so the tier literal-dict lookup
(src/main.py line 112) cannot raise `TypeError`. -/
def tierHashOk (m : JVal) : Bool :=
  match m with
  | .obj mf =>
      match (lookupStr mf "serie").getD (.obj []) with
      | .obj sf => pyHashable ((lookupStr sf "tier").getD .null)
      | _ => false
  | _ => false

/-- A round entry whose sides are exactly the two teams (as a set), whose
round number is a nonzero integer and whose winner is one of the two teams. -/
def roundPairedOk (A B rnd : JVal) : Bool :=
  isObjVal rnd &&
  ((roundCT rnd == A && roundTerr rnd == B) ||
   (roundCT rnd == B && roundTerr rnd == A)) &&
  (match roundNumOf rnd with
   | .num n => n != 0
   | _ => false) &&
  (roundWin rnd == A || roundWin rnd == B)

/-- A match document that passes every whole-match gate of the flattener with
teams `A` and `B`: truthy hashable distinct team ids, truthy match id,
parseable timestamp, truthy map id, dict-shaped metadata with a hashable
serie tier, exactly 10 participation entries all usable and split 5/5 over
`A` and `B` with distinct player ids, and a rounds list of at least 16 dict
entries starting at round number 1 whose round numbers are integers whenever
truthy and whose outcome values are hashable.  (No constraint yet on
sides/winners of the individual rounds.) -/
def usableGame (game A B : JVal) : Bool :=
  truthy A && truthy B && pyHashable A && pyHashable B &&
  !pyEq A B && !pyEq B A &&
  (match game with
   | .obj fs =>
       truthy ((lookupStr fs "id").getD .null) &&
       (parseDate ((lookupStr fs "begin_at").getD .null)).isSome &&
       (match (lookupStr fs "map").getD (.obj []) with
        | .obj mf => truthy ((lookupStr mf "id").getD .null)
        | _ => false) &&
       metaOk ((lookupStr fs "match").getD (.obj [])) &&
       tierHashOk ((lookupStr fs "match").getD (.obj [])) &&
       (match lookupStr fs "players" with
        | some (.arr ps) =>
            (ps.length == 10) &&
            ps.all (fun p => partFor p A B || partFor p B A) &&
            ((teamIds ps A).length == 5) && (distinctCount (teamIds ps A) == 5) &&
            ((teamIds ps B).length == 5) && (distinctCount (teamIds ps B) == 5)
        | _ => false) &&
       (match lookupStr fs "rounds" with
        | some (.arr rs) =>
            decide (16 ≤ rs.length) &&
            (match rs with
             | r :: _ => isObjVal r && pyEq (roundNumOf r) (.num 1)
             | [] => false) &&
            rs.all (fun rnd => isObjVal rnd &&
              (match roundNumOf rnd with
               | .num _ => true
               | v => !truthy v) &&
              pyHashable (roundOutcome rnd))
        | _ => false)
   | _ => false)

/-- `usableGame` plus: every round is between exactly the two teams with a
winner among them. -/
def wellFormedGame (game A B : JVal) : Bool :=
  usableGame game A B &&
  (match game with
   | .obj fs =>
       (match lookupStr fs "rounds" with
        | some (.arr rs) => rs.all (fun rnd => roundPairedOk A B rnd)
        | _ => false)
   | _ => false)

/-! ## Extractors used to state what a row carries -/

def beginAtValOf (game : JVal) : JVal :=
  match game with
  | .obj fs => (lookupStr fs "begin_at").getD .null
  | _ => .null

def mapIdOf (game : JVal) : JVal :=
  match game with
  | .obj fs =>
      match (lookupStr fs "map").getD (.obj []) with
      | .obj mf => (lookupStr mf "id").getD .null
      | _ => .null
  | _ => .null

def matchValOf (game : JVal) : JVal :=
  match game with
  | .obj fs => (lookupStr fs "match").getD (.obj [])
  | _ => .null

def subIdOfMatch (game : JVal) (k : String) : JVal :=
  match matchValOf game with
  | .obj mf =>
      match (lookupStr mf k).getD (.obj []) with
      | .obj xf => (lookupStr xf "id").getD .null
      | _ => .null
  | _ => .null

def leagueIdOf (game : JVal) : JVal := subIdOfMatch game "league"
def serieIdOf (game : JVal) : JVal := subIdOfMatch game "serie"
def tournamentIdOf (game : JVal) : JVal := subIdOfMatch game "tournament"

def serieTierValOf (game : JVal) : JVal :=
  match matchValOf game with
  | .obj mf =>
      match (lookupStr mf "serie").getD (.obj []) with
      | .obj sf => (lookupStr sf "tier").getD .null
      | _ => .null
  | _ => .null

/-- The per-game constants a well-formed game's rows carry. -/
def ctxOf (game : JVal) (d : String) : GameCtx :=
  ⟨docId game, d, mapIdOf game, leagueIdOf game, serieIdOf game,
   tierTable (serieTierValOf game), tournamentIdOf game⟩

def playersOf (game : JVal) : List JVal :=
  match game with
  | .obj fs =>
      match lookupStr fs "players" with
      | some (.arr ps) => ps
      | _ => []
  | _ => []

/-! ## Full evaluation of the flattener on a usable game -/

theorem flatten_usable (game A B : JVal) (h : usableGame game A B = true) :
    ∃ rows, ∃ d : String, ∃ statsMap tps tms,
      flatten_game game = .ok rows ∧
      parseDate (beginAtValOf game) = some d ∧
      (playersOf game).foldlM buildStep ⟨[], [], []⟩ =
        .ok ⟨statsMap, tps, tms⟩ ∧
      rows.length =
        5 * (5 * (roundsOf game).countP (fun rnd => roundFor A B rnd)) +
        5 * (5 * (roundsOf game).countP (fun rnd => roundFor B A rnd)) ∧
      ∀ r ∈ rows, ∃ t o p po rnd, ∃ n : Int, ∃ stats : Stats,
        alistFind statsMap p = some stats ∧
        rnd ∈ roundsOf game ∧ roundFor t o rnd = true ∧
        roundNumOf rnd = .num n ∧
        r = rowOf (ctxOf game d) stats t o p po rnd n ∧
        ((t = A ∧ o = B) ∨ (t = B ∧ o = A)) := by
  cases game with
  | null => simp [usableGame] at h
  | bool b => simp [usableGame] at h
  | num n => simp [usableGame] at h
  | str s => simp [usableGame] at h
  | arr xs => simp [usableGame] at h
  | obj fs =>
  simp only [usableGame, Bool.and_eq_true, Bool.not_eq_true'] at h
  obtain ⟨⟨⟨⟨⟨⟨hA, hB⟩, hhA⟩, hhB⟩, hAB⟩, hBA⟩, hdoc⟩ := h
  obtain ⟨⟨⟨⟨⟨⟨hid, hbg⟩, hmap⟩, hmeta⟩, htier⟩, hplayers⟩, hrounds⟩ := hdoc
  obtain ⟨d, hd⟩ := Option.isSome_iff_exists.mp hbg
  -- the map object
  obtain ⟨mf, hmv, hmap'⟩ : ∃ mf, (lookupStr fs "map").getD (.obj []) = .obj mf ∧
      truthy ((lookupStr mf "id").getD .null) = true := by
    cases hmv : (lookupStr fs "map").getD (.obj []) with
    | obj mf => rw [hmv] at hmap; exact ⟨mf, rfl, by simpa using hmap⟩
    | null => rw [hmv] at hmap; simp at hmap
    | bool b => rw [hmv] at hmap; simp at hmap
    | num n => rw [hmv] at hmap; simp at hmap
    | str s => rw [hmv] at hmap; simp at hmap
    | arr xs => rw [hmv] at hmap; simp at hmap
  clear hmap
  -- the match metadata object
  obtain ⟨mtf, hmtv, hmeta'⟩ : ∃ mtf,
      (lookupStr fs "match").getD (.obj []) = .obj mtf ∧
      (optObj (lookupStr mtf "league") && optObj (lookupStr mtf "serie") &&
        optObj (lookupStr mtf "tournament")) = true := by
    cases hmtv : (lookupStr fs "match").getD (.obj []) with
    | obj mtf =>
        rw [hmtv] at hmeta
        exact ⟨mtf, rfl, by simpa [metaOk] using hmeta⟩
    | null => rw [hmtv] at hmeta; simp [metaOk] at hmeta
    | bool b => rw [hmtv] at hmeta; simp [metaOk] at hmeta
    | num n => rw [hmtv] at hmeta; simp [metaOk] at hmeta
    | str s => rw [hmtv] at hmeta; simp [metaOk] at hmeta
    | arr xs => rw [hmtv] at hmeta; simp [metaOk] at hmeta
  clear hmeta
  simp only [Bool.and_eq_true] at hmeta'
  obtain ⟨⟨hlg, hsr⟩, htr⟩ := hmeta'
  obtain ⟨lf, hlf⟩ := isObjVal_exists (optObj_getD hlg)
  obtain ⟨sf, hsf⟩ := isObjVal_exists (optObj_getD hsr)
  obtain ⟨tf, htf⟩ := isObjVal_exists (optObj_getD htr)
  -- the serie tier is hashable
  rw [hmtv] at htier
  simp only [tierHashOk] at htier
  rw [hsf] at htier
  have htier2 : pyHashable ((lookupStr sf "tier").getD .null) = true := htier
  -- the players list
  obtain ⟨ps, hpl, hplayers'⟩ : ∃ ps, lookupStr fs "players" = some (.arr ps) ∧
      ((ps.length == 10) &&
        ps.all (fun p => partFor p A B || partFor p B A) &&
        ((teamIds ps A).length == 5) && (distinctCount (teamIds ps A) == 5) &&
        ((teamIds ps B).length == 5) && (distinctCount (teamIds ps B) == 5)) =
        true := by
    cases hpl : lookupStr fs "players" with
    | none => rw [hpl] at hplayers; simp at hplayers
    | some pv =>
        cases pv with
        | arr ps => rw [hpl] at hplayers; exact ⟨ps, rfl, by simpa using hplayers⟩
        | null => rw [hpl] at hplayers; simp at hplayers
        | bool b => rw [hpl] at hplayers; simp at hplayers
        | num n => rw [hpl] at hplayers; simp at hplayers
        | str s => rw [hpl] at hplayers; simp at hplayers
        | obj o => rw [hpl] at hplayers; simp at hplayers
  clear hplayers
  simp only [Bool.and_eq_true, beq_iff_eq, List.all_eq_true,
    Bool.or_eq_true] at hplayers'
  obtain ⟨⟨⟨⟨⟨hps10, hall⟩, hlenA⟩, hdisA⟩, hlenB⟩, hdisB⟩ := hplayers'
  -- the rounds list
  obtain ⟨rs, hrnds, hrounds'⟩ : ∃ rs, lookupStr fs "rounds" = some (.arr rs) ∧
      (decide (16 ≤ rs.length) &&
        (match rs with
         | r :: _ => isObjVal r && pyEq (roundNumOf r) (.num 1)
         | [] => false) &&
        rs.all (fun rnd => isObjVal rnd &&
          (match roundNumOf rnd with
           | .num _ => true
           | v => !truthy v) &&
          pyHashable (roundOutcome rnd))) = true := by
    cases hrnds : lookupStr fs "rounds" with
    | none => rw [hrnds] at hrounds; simp at hrounds
    | some rv =>
        cases rv with
        | arr rs => rw [hrnds] at hrounds; exact ⟨rs, rfl, by simpa using hrounds⟩
        | null => rw [hrnds] at hrounds; simp at hrounds
        | bool b => rw [hrnds] at hrounds; simp at hrounds
        | num n => rw [hrnds] at hrounds; simp at hrounds
        | str s => rw [hrnds] at hrounds; simp at hrounds
        | obj o => rw [hrnds] at hrounds; simp at hrounds
  clear hrounds
  simp only [Bool.and_eq_true, List.all_eq_true, decide_eq_true_eq] at hrounds'
  obtain ⟨⟨hlen16, hfirst⟩, hbenign⟩ := hrounds'
  rcases rs with _ | ⟨r0, rest⟩
  · simp at hfirst
  rw [Bool.and_eq_true] at hfirst
  obtain ⟨hr0obj, hr0num⟩ := hfirst
  obtain ⟨r0f, hr0f⟩ := isObjVal_exists hr0obj
  -- facts for the loop lemmas
  have hobjs : ∀ rnd ∈ r0 :: rest, isObjVal rnd = true := by
    intro rnd hrnd
    exact (hbenign rnd hrnd).1.1
  have houts : ∀ rnd ∈ r0 :: rest, pyHashable (roundOutcome rnd) = true := by
    intro rnd hrnd
    exact (hbenign rnd hrnd).2
  have hnums : ∀ rnd ∈ r0 :: rest, truthy (roundNumOf rnd) = true →
      ∃ n : Int, roundNumOf rnd = .num n := by
    intro rnd hrnd htt
    have hb := (hbenign rnd hrnd).1.2
    cases hq : roundNumOf rnd with
    | num n => exact ⟨n, rfl⟩
    | null => rw [hq] at htt; simp [truthy] at htt
    | bool b => rw [hq] at hb htt; simp [truthy] at hb htt; simp_all
    | str s => rw [hq] at hb htt; simp [truthy] at hb htt; simp_all
    | arr xs => rw [hq] at hb htt; simp [truthy] at hb htt; simp_all
    | obj o => rw [hq] at hb htt; simp [truthy] at hb htt; simp_all
  -- the participation fold
  have hparts : ∀ p ∈ ps, partFor p A B = true ∨ partFor p B A = true := hall
  obtain ⟨st, hfold, hgood, hkeys⟩ := buildFold A B hA hB hhA hhB hAB hBA ps
    ⟨[], [], []⟩ [] [] hparts (Or.inl ⟨rfl, rfl, rfl, rfl⟩)
    (by intro x hx; simp at hx)
  simp only [List.nil_append] at hgood hkeys
  have hplayersOf : playersOf (.obj fs) = ps := by simp [playersOf, hpl]
  -- the bridge into the team loop
  have hbridge := flatten_game_eq_rowsForTeams (.obj fs)
    ((lookupStr fs "id").getD .null) ((lookupStr fs "begin_at").getD .null)
    (.obj mf) ((lookupStr mf "id").getD .null) (.obj mtf) (.obj lf)
    ((lookupStr lf "id").getD .null) (.obj sf) ((lookupStr sf "id").getD .null)
    ((lookupStr sf "tier").getD .null) (.obj tf) ((lookupStr tf "id").getD .null)
    (.arr ps) (.arr (r0 :: rest)) r0 (roundNumOf r0) d
    (tierTable ((lookupStr sf "tier").getD .null)) ps (r0 :: rest) st
    (r0 :: rest).length rfl hid rfl hd (by simp [pyGetD, hmv]) rfl hmap'
    (by simp [pyGetD, hmtv]) (by simp [pyGetD, hlf]) rfl
    (by simp [pyGetD, hsf]) rfl rfl (by simp [tierMap, htier2])
    (by simp [pyGetD, htf]) rfl
    (by simp [pyGetD, hpl]) (by simp [pyLen, hps10]) rfl hfold
    (by simp [pyGetD, hrnds]) rfl (by simpa using hlen16) (by simp [truthy])
    (by simp [pyIndex]) (by simp [pyGet, hr0f, roundNumOf]) hr0num rfl
  -- characterize the context
  have hctx : (⟨(lookupStr fs "id").getD .null, d,
      (lookupStr mf "id").getD .null, (lookupStr lf "id").getD .null,
      (lookupStr sf "id").getD .null,
      tierTable ((lookupStr sf "tier").getD .null),
      (lookupStr tf "id").getD .null⟩ : GameCtx) = ctxOf (.obj fs) d := by
    simp [ctxOf, docId, mapIdOf, leagueIdOf, serieIdOf, tournamentIdOf,
      serieTierValOf, subIdOfMatch, matchValOf, hmv, hmtv, hlf, hsf, htf]
  have hroundsOf : roundsOf (.obj fs) = r0 :: rest := by
    simp [roundsOf, hrnds]
  have hkA : ∀ p ∈ teamIds ps A, (alistFind st.stats p).isSome = true :=
    fun p hp => hkeys p (by simp [hp])
  have hkB : ∀ p ∈ teamIds ps B, (alistFind st.stats p).isSome = true :=
    fun p hp => hkeys p (by simp [hp])
  -- run the team loop
  rcases hgood with ⟨e1, e2, e3, e4⟩ | ⟨e1, e2, e3⟩ | ⟨e1, e2, e3⟩ |
    ⟨e1, e2⟩ | ⟨e1, e2⟩
  · rw [e3] at hlenA; simp at hlenA
  · rw [e3] at hlenB; simp at hlenB
  · rw [e3] at hlenA; simp at hlenA
  · -- teamPlayers = [(A, aIds), (B, bIds)]
    obtain ⟨l, hl, hlen, hmem⟩ := rowsForTeams_pair (ctxOf (.obj fs) d) st.stats
      A B (teamIds ps A) (teamIds ps B) (r0 :: rest) hA hB hhA hhB hAB hBA
      hdisA hdisB hobjs hnums houts hkA hkB
    refine ⟨l, d, st.stats, st.teamPlayers, st.teams, ?_, ?_, ?_, ?_, ?_⟩
    · rw [hbridge, e1, e2, hctx, hl]
    · simpa [beginAtValOf]
    · rw [hplayersOf]; exact hfold
    · rw [hroundsOf, hlen, hlenA, hlenB]
    · intro r hr
      obtain ⟨t, o, p, po, rnd, n, stats, h1, h2, h3, h4, h5, h6⟩ := hmem r hr
      exact ⟨t, o, p, po, rnd, n, stats, h1, by rw [hroundsOf]; exact h2, h3,
        h4, h5, h6⟩
  · -- teamPlayers = [(B, bIds), (A, aIds)]
    obtain ⟨l, hl, hlen, hmem⟩ := rowsForTeams_pair (ctxOf (.obj fs) d) st.stats
      B A (teamIds ps B) (teamIds ps A) (r0 :: rest) hB hA hhB hhA hBA hAB
      hdisB hdisA hobjs hnums houts hkB hkA
    refine ⟨l, d, st.stats, st.teamPlayers, st.teams, ?_, ?_, ?_, ?_, ?_⟩
    · rw [hbridge, e1, e2, hctx, hl]
    · simpa [beginAtValOf]
    · rw [hplayersOf]; exact hfold
    · rw [hroundsOf, hlen, hlenA, hlenB]
      omega
    · intro r hr
      obtain ⟨t, o, p, po, rnd, n, stats, h1, h2, h3, h4, h5, h6⟩ := hmem r hr
      exact ⟨t, o, p, po, rnd, n, stats, h1, by rw [hroundsOf]; exact h2, h3,
        h4, h5, by tauto⟩

/-! ## C1: row count for well-formed matches -/

theorem roundPairedOk_roundFor {A B rnd : JVal} (hA : truthy A = true)
    (hB : truthy B = true) (hhA : pyHashable A = true)
    (hhB : pyHashable B = true) (h : roundPairedOk A B rnd = true) :
    roundFor A B rnd = true ∧ roundFor B A rnd = true := by
  simp only [roundPairedOk, Bool.and_eq_true, Bool.or_eq_true,
    beq_iff_eq] at h
  obtain ⟨⟨⟨hobj, hsides⟩, hnum⟩, hwin⟩ := h
  have hAA := pyEq_refl A hhA
  have hBB := pyEq_refl B hhB
  have hnumT : truthy (roundNumOf rnd) = true := by
    cases hq : roundNumOf rnd with
    | num n => rw [hq] at hnum; simpa [truthy] using hnum
    | null => rw [hq] at hnum; simp at hnum
    | bool b => rw [hq] at hnum; simp at hnum
    | str s => rw [hq] at hnum; simp at hnum
    | arr xs => rw [hq] at hnum; simp at hnum
    | obj o => rw [hq] at hnum; simp at hnum
  constructor
  · simp only [roundFor, hobj, hnumT, pyMem, List.any_cons, List.any_nil,
      Bool.and_eq_true, Bool.or_eq_true, true_and, Bool.or_false]
    rcases hsides with ⟨hct, hterr⟩ | ⟨hct, hterr⟩ <;>
      rcases hwin with hw | hw <;>
      simp [hct, hterr, hw, hA, hB, hAA, hBB]
  · simp only [roundFor, hobj, hnumT, pyMem, List.any_cons, List.any_nil,
      Bool.and_eq_true, Bool.or_eq_true, true_and, Bool.or_false]
    rcases hsides with ⟨hct, hterr⟩ | ⟨hct, hterr⟩ <;>
      rcases hwin with hw | hw <;>
      simp [hct, hterr, hw, hA, hB, hAA, hBB]

/-- C1: for every well-formed match document — exactly two teams of 5 valid
players each and R (≥ 16) rounds whose sides are exactly the two teams, with
a present (nonzero integer) round number and a winner among the two teams —
`flatten_game` succeeds and returns exactly 5 × 5 × R × 2 rows: every player
on one team paired with every player on the other, every round emitted once
per team perspective. -/
theorem flatten_wellformed_count (game A B : JVal)
    (h : wellFormedGame game A B = true) :
    ∃ rows, flatten_game game = .ok rows ∧
      rows.length = 5 * 5 * (roundsOf game).length * 2 := by
  cases game with
  | null => simp [wellFormedGame] at h
  | bool b => simp [wellFormedGame] at h
  | num n => simp [wellFormedGame] at h
  | str s => simp [wellFormedGame] at h
  | arr xs => simp [wellFormedGame] at h
  | obj fs =>
  simp only [wellFormedGame, Bool.and_eq_true] at h
  obtain ⟨hu, hpair⟩ := h
  have hteam : truthy A = true ∧ truthy B = true ∧ pyHashable A = true ∧
      pyHashable B = true := by
    simp only [usableGame, Bool.and_eq_true] at hu
    exact ⟨hu.1.1.1.1.1.1, hu.1.1.1.1.1.2, hu.1.1.1.1.2, hu.1.1.1.2⟩
  obtain ⟨hA, hB, hhA, hhB⟩ := hteam
  have hpaired : ∀ rnd ∈ roundsOf (.obj fs), roundPairedOk A B rnd = true := by
    cases hrnds : lookupStr fs "rounds" with
    | none => rw [hrnds] at hpair; simp at hpair
    | some rv =>
        cases rv with
        | arr rs =>
            rw [hrnds] at hpair
            simp only [List.all_eq_true] at hpair
            intro rnd hrnd
            exact hpair rnd (by simpa [roundsOf, hrnds] using hrnd)
        | null => rw [hrnds] at hpair; simp at hpair
        | bool b => rw [hrnds] at hpair; simp at hpair
        | num n => rw [hrnds] at hpair; simp at hpair
        | str s => rw [hrnds] at hpair; simp at hpair
        | obj o => rw [hrnds] at hpair; simp at hpair
  obtain ⟨rows, d, statsMap, tps, tms, hrows, hd, hfold, hlen, hmem⟩ :=
    flatten_usable (.obj fs) A B hu
  refine ⟨rows, hrows, ?_⟩
  rw [hlen]
  have h1 : (roundsOf (.obj fs)).countP (fun rnd => roundFor A B rnd) =
      (roundsOf (.obj fs)).length :=
    List.countP_eq_length.mpr (fun rnd hrnd =>
      (roundPairedOk_roundFor hA hB hhA hhB (hpaired rnd hrnd)).1)
  have h2 : (roundsOf (.obj fs)).countP (fun rnd => roundFor B A rnd) =
      (roundsOf (.obj fs)).length :=
    List.countP_eq_length.mpr (fun rnd hrnd =>
      (roundPairedOk_roundFor hA hB hhA hhB (hpaired rnd hrnd)).2)
  rw [h1, h2]
  ring

theorem flatten_wellformed_count_witness :
    wellFormedGame sampleGame (.str "t1") (.str "t2") = true ∧
    ∃ rows, flatten_game sampleGame = .ok rows ∧
      rows.length = 5 * 5 * (roundsOf sampleGame).length * 2 :=
  ⟨by decide,
   flatten_wellformed_count sampleGame (.str "t1") (.str "t2") (by decide)⟩
/-! ## C2 (counterexample part): flatten_game can raise -/

/-- C2 counterexample: `flatten_game` does not absorb every failure: on a
document whose `"map"` value is the number 5 (identifier and timestamp
valid), `game.get("map", {}).get("id")` raises `AttributeError` instead of
returning an empty sequence. -/
theorem flatten_raises_on_bad_map :
    flatten_game badMapGame =
      .error "AttributeError: object has no attribute get" := rfl

/-! ## C3: extractor behaviour on unparseable-only directories -/

/-- C3 counterexample: a directory whose only file is syntactically invalid
JSON does **not** fail fast with the input-absent error: the extractor
returns the empty document sequence and the run completes normally with an
empty result list. -/
theorem run_completes_on_unparseable_only :
    game_extractor badOnlyDir = .ok [] ∧ process_games badOnlyDir = .ok [] :=
  ⟨rfl, rfl⟩

/-- C3 amended: the input-absent (`FileNotFoundError`) failure happens exactly
when the directory holds no `*.json` file at all; when at least one `*.json`
file exists — parseable or not — the extractor succeeds, yielding the
documents of the files that parse (unparseable ones are skipped). -/
theorem extractor_error_iff_no_json (dir : List FileEntry) :
    (jsonFiles dir = [] →
      game_extractor dir = .error "FileNotFoundError: No JSON files found") ∧
    (jsonFiles dir ≠ [] →
      game_extractor dir = .ok ((jsonFiles dir).filterMap (fun f => f.content))) := by
  constructor
  · intro h
    simp [game_extractor, h]
  · intro h
    rw [game_extractor, if_neg]
    simp [List.isEmpty_iff, h]

theorem extractor_error_iff_no_json_witness :
    game_extractor noJsonDir = .error "FileNotFoundError: No JSON files found" ∧
    game_extractor badOnlyDir =
      .ok ((jsonFiles badOnlyDir).filterMap (fun f => f.content)) :=
  ⟨(extractor_error_iff_no_json noJsonDir).1 (by decide),
   (extractor_error_iff_no_json badOnlyDir).2 (by decide)⟩

/-! ## C8: determinism of the flattener -/

/-- C8: `flatten_game` is deterministic — two runs on the same (unmodified)
document return the same result, hence row sequences equal up to (indeed, in)
row order. -/
theorem flatten_deterministic (game : JVal) (rows1 rows2 : List Row)
    (h1 : flatten_game game = .ok rows1) (h2 : flatten_game game = .ok rows2) :
    List.Perm rows1 rows2 := by
  rw [h1] at h2
  injection h2 with h
  rw [h]

theorem flatten_deterministic_witness : List.Perm ([] : List Row) [] :=
  flatten_deterministic (JVal.obj []) [] [] rfl rfl

/-! ## C10: falsy identifiers are rejected by truthiness -/

/-- C10: a document whose match identifier or map identifier is present but
falsy (numeric 0, empty string, ...) yields the empty row sequence — presence
is decided by truthiness, exactly as if the identifier were absent. -/
theorem flatten_falsy_id_empty (game : JVal)
    (h : falsyIdPresent game = true ∨ falsyMapIdPresent game = true) :
    flatten_game game = .ok [] := by
  cases game with
  | obj fs =>
      by_cases hid : truthy ((lookupStr fs "id").getD .null) = true
      · rcases h with h | h
        · simp [falsyIdPresent, hid] at h
        · obtain ⟨mf, heq, hfalsy⟩ : ∃ mf,
              lookupStr fs "map" = some (.obj mf) ∧
              truthy ((lookupStr mf "id").getD .null) = false := by
            simp only [falsyMapIdPresent] at h
            cases hm : lookupStr fs "map" with
            | none => rw [hm] at h; simp at h
            | some mv =>
                cases mv with
                | obj mf =>
                    rw [hm] at h
                    simp only [Bool.and_eq_true, Bool.not_eq_true'] at h
                    exact ⟨mf, rfl, h.2⟩
                | null => rw [hm] at h; simp at h
                | bool b => rw [hm] at h; simp at h
                | num n => rw [hm] at h; simp at h
                | str s => rw [hm] at h; simp at h
                | arr xs => rw [hm] at h; simp at h
          cases hbd : parseDate ((lookupStr fs "begin_at").getD .null) with
          | none => simp [flatten_game, pyGet, hid, hbd]
          | some d => simp [flatten_game, pyGet, pyGetD, hid, hbd, heq, hfalsy]
      · simp [flatten_game, pyGet, hid]
  | null => simp [falsyIdPresent, falsyMapIdPresent] at h
  | bool b => simp [falsyIdPresent, falsyMapIdPresent] at h
  | num n => simp [falsyIdPresent, falsyMapIdPresent] at h
  | str s => simp [falsyIdPresent, falsyMapIdPresent] at h
  | arr xs => simp [falsyIdPresent, falsyMapIdPresent] at h

theorem flatten_falsy_id_empty_witness :
    flatten_game zeroIdGame = .ok [] ∧ flatten_game falsyMapGame = .ok [] :=
  ⟨flatten_falsy_id_empty zeroIdGame (Or.inl rfl),
   flatten_falsy_id_empty falsyMapGame (Or.inr rfl)⟩

/-! ## C7: series-tier and outcome mappings -/

/-- C7 counterexample: an unrecognized tier or outcome value does not always
map to an absent value with the row still emitted — the literal-dict `.get`
hashes its key, so a list-valued tier raises `TypeError` (no rows), and a
round with a list-valued outcome that passes every side/number/winner guard
raises `TypeError` while building the row instead of emitting it. -/
theorem unhashable_tier_outcome_raises :
    flatten_game badTierGame = .error "TypeError: unhashable type" ∧
    processRound ⟨.str "g1", "2024-01-01", .str "m1", .null, .null, none,
        .null⟩ [(.str "p0", statsOfFields [])] (.str "t1") (.str "t2")
      (.str "p0") (.str "p5") badOutcomeRound =
      .error "TypeError: unhashable type" :=
  ⟨rfl, rfl⟩

/-- C7 amended: over hashable probe values the series-tier mapping is
case-sensitive with exactly s→1, a→2, b→3, c→4, d→5 and every other hashable
value (`"z"`, uppercase `"S"`, absent) mapping to an absent value — never
zero — and the outcome mapping recognizes exactly exploded→1, defused→2,
eliminated→3, timeout→4, every other hashable value mapping to an absent
value while the row is still emitted: the fixture with tier `"z"` and outcome
`"slip-n-slide"` yields 50 rows, all with absent tier and absent outcome, and
the fixture with tier `"b"` and outcome `"defused"` yields 50 rows with tier
3 and outcome 2.  An unhashable tier or outcome value, however, makes the
lookup raise `TypeError` (see the counterexample). -/
theorem tier_outcome_mapping :
    tierMap (.str "s") = .ok (some 1) ∧ tierMap (.str "a") = .ok (some 2) ∧
    tierMap (.str "b") = .ok (some 3) ∧ tierMap (.str "c") = .ok (some 4) ∧
    tierMap (.str "d") = .ok (some 5) ∧
    tierMap (.str "z") = .ok none ∧ tierMap (.str "S") = .ok none ∧
    tierMap .null = .ok none ∧
    (∀ v : JVal, pyHashable v = true → tierMap v = .ok (tierTable v)) ∧
    (∀ v : JVal, pyHashable v = false →
      tierMap v = .error "TypeError: unhashable type") ∧
    (∀ v : JVal, tierTable v = none ∨ tierTable v = some 1 ∨
      tierTable v = some 2 ∨ tierTable v = some 3 ∨ tierTable v = some 4 ∨
      tierTable v = some 5) ∧
    outcomeMap (.str "exploded") = .ok (some 1) ∧
    outcomeMap (.str "defused") = .ok (some 2) ∧
    outcomeMap (.str "eliminated") = .ok (some 3) ∧
    outcomeMap (.str "timeout") = .ok (some 4) ∧
    outcomeMap (.str "slip-n-slide") = .ok none ∧
    (∀ v : JVal, pyHashable v = true → outcomeMap v = .ok (outcomeTable v)) ∧
    (∀ v : JVal, pyHashable v = false →
      outcomeMap v = .error "TypeError: unhashable type") ∧
    (∀ v : JVal, outcomeTable v = none ∨ outcomeTable v = some 1 ∨
      outcomeTable v = some 2 ∨ outcomeTable v = some 3 ∨
      outcomeTable v = some 4) ∧
    (∃ rows, flatten_game tierZGame = .ok rows ∧ rows.length = 50 ∧
      ∀ r ∈ rows, r.serie_tier = none ∧ r.outcome = none) ∧
    (∃ rows, flatten_game tierBGame = .ok rows ∧ rows.length = 50 ∧
      ∀ r ∈ rows, r.serie_tier = some 3 ∧ r.outcome = some 2) := by
  refine ⟨rfl, rfl, rfl, rfl, rfl, rfl, rfl, rfl, ?_, ?_, ?_, rfl, rfl, rfl,
    rfl, rfl, ?_, ?_, ?_, ?_, ?_⟩
  · intro v h
    simp [tierMap, h]
  · intro v h
    simp [tierMap, h]
  · intro v
    unfold tierTable
    split_ifs <;> simp
  · intro v h
    simp [outcomeMap, h]
  · intro v h
    simp [outcomeMap, h]
  · intro v
    unfold outcomeTable
    split_ifs <;> simp
  · obtain ⟨rows, d, sm, tp, tm, hrows, hdd, hfold, hlen, hmem⟩ :=
      flatten_usable tierZGame (.str "t1") (.str "t2") (by decide)
    refine ⟨rows, hrows, ?_, ?_⟩
    · rw [hlen,
        show (roundsOf tierZGame).countP
          (fun rnd => roundFor (.str "t1") (.str "t2") rnd) = 1 from by decide,
        show (roundsOf tierZGame).countP
          (fun rnd => roundFor (.str "t2") (.str "t1") rnd) = 1 from by decide]
    · intro r hr
      obtain ⟨t, o, p, po, rnd, n, stats, h1, h2, h3, h4, h5, h6⟩ := hmem r hr
      subst h5
      constructor
      · show (ctxOf tierZGame d).serie_tier = none
        rw [show (ctxOf tierZGame d).serie_tier =
          tierTable (serieTierValOf tierZGame) from rfl]
        decide
      · show outcomeTable (roundOutcome rnd) = none
        exact (show ∀ x ∈ roundsOf tierZGame,
          outcomeTable (roundOutcome x) = none from by decide) rnd h2
  · obtain ⟨rows, d, sm, tp, tm, hrows, hdd, hfold, hlen, hmem⟩ :=
      flatten_usable tierBGame (.str "t1") (.str "t2") (by decide)
    refine ⟨rows, hrows, ?_, ?_⟩
    · rw [hlen,
        show (roundsOf tierBGame).countP
          (fun rnd => roundFor (.str "t1") (.str "t2") rnd) = 1 from by decide,
        show (roundsOf tierBGame).countP
          (fun rnd => roundFor (.str "t2") (.str "t1") rnd) = 1 from by decide]
    · intro r hr
      obtain ⟨t, o, p, po, rnd, n, stats, h1, h2, h3, h4, h5, h6⟩ := hmem r hr
      subst h5
      constructor
      · show (ctxOf tierBGame d).serie_tier = some 3
        rw [show (ctxOf tierBGame d).serie_tier =
          tierTable (serieTierValOf tierBGame) from rfl]
        decide
      · show outcomeTable (roundOutcome rnd) = some 2
        have houts : ∀ x ∈ roundsOf tierBGame,
            (roundFor (.str "t1") (.str "t2") x = true →
              outcomeTable (roundOutcome x) = some 2) ∧
            (roundFor (.str "t2") (.str "t1") x = true →
              outcomeTable (roundOutcome x) = some 2) := by decide
        rcases h6 with ⟨rfl, rfl⟩ | ⟨rfl, rfl⟩
        · exact (houts rnd h2).1 h3
        · exact (houts rnd h2).2 h3

theorem tier_outcome_mapping_witness :
    pyHashable (JVal.str "q") = true ∧
    tierMap (JVal.str "q") = .ok (tierTable (JVal.str "q")) ∧
    pyHashable (JVal.arr []) = false ∧
    tierMap (JVal.arr []) = .error "TypeError: unhashable type" ∧
    outcomeMap (JVal.str "q") = .ok (outcomeTable (JVal.str "q")) ∧
    outcomeMap (JVal.arr []) = .error "TypeError: unhashable type" :=
  ⟨by decide, (tier_outcome_mapping.2.2.2.2.2.2.2.2.1 (JVal.str "q")
      (by decide)),
   by decide, (tier_outcome_mapping.2.2.2.2.2.2.2.2.2.1 (JVal.arr [])
      (by decide)),
   (tier_outcome_mapping.2.2.2.2.2.2.2.2.2.2.2.2.2.2.2.2.1 (JVal.str "q")
      (by decide)),
   (tier_outcome_mapping.2.2.2.2.2.2.2.2.2.2.2.2.2.2.2.2.2.1 (JVal.arr [])
      (by decide))⟩

/-! ## C4: per-round side/winner filter -/

/-- C4 counterexample: a round whose two side identifiers are both the same
one of the two teams still produces rows.  In `ctTerrGame` the only round
with a winner has ct = terrorists = t1, yet the flattener emits 50 rows, all
from that round (round number 1). -/
theorem ct_terr_same_team_rows :
    ∃ rows, flatten_game ctTerrGame = .ok rows ∧ rows.length = 50 ∧
      ∀ r ∈ rows, r.round = 1 := by
  obtain ⟨rows, d, sm, tp, tm, hrows, hdd, hfold, hlen, hmem⟩ :=
    flatten_usable ctTerrGame (.str "t1") (.str "t2") (by decide)
  refine ⟨rows, hrows, ?_, ?_⟩
  · rw [hlen,
      show (roundsOf ctTerrGame).countP
        (fun rnd => roundFor (.str "t1") (.str "t2") rnd) = 1 from by decide,
      show (roundsOf ctTerrGame).countP
        (fun rnd => roundFor (.str "t2") (.str "t1") rnd) = 1 from by decide]
  · intro r hr
    obtain ⟨t, o, p, po, rnd, n, stats, h1, h2, h3, h4, h5, h6⟩ := hmem r hr
    subst h5
    show n = 1
    have hround1 : ∀ x ∈ roundsOf ctTerrGame,
        (roundFor (.str "t1") (.str "t2") x = true →
          roundNumOf x = .num 1) ∧
        (roundFor (.str "t2") (.str "t1") x = true →
          roundNumOf x = .num 1) := by decide
    rcases h6 with ⟨rfl, rfl⟩ | ⟨rfl, rfl⟩
    · have h7 := (hround1 rnd h2).1 h3
      rw [h7] at h4
      simp only [JVal.num.injEq] at h4
      omega
    · have h7 := (hround1 rnd h2).2 h3
      rw [h7] at h4
      simp only [JVal.num.injEq] at h4
      omega

/-- C4 amended: for a surviving (team, opponent) pair, a round (with an
integer round number and a hashable outcome value) produces a row exactly
when both side identifiers are truthy and each is a member of the two-element
list [team, opponent] — element-wise membership, not set equality — and the
round number is truthy and the winner is a truthy member of the pair.  In
particular a round whose two sides are the same one of the two teams is
accepted. -/
theorem processRound_emits_iff (ctx : GameCtx) (statsMap : List (JVal × Stats))
    (t o p po rnd : JVal) (stats : Stats) (n : Int)
    (hobj : isObjVal rnd = true) (hn : roundNumOf rnd = .num n)
    (hs : alistFind statsMap p = some stats)
    (ho : pyHashable (roundOutcome rnd) = true) :
    (∃ r, processRound ctx statsMap t o p po rnd = .ok (some r)) ↔
      roundFor t o rnd = true := by
  constructor
  · rintro ⟨r, hr⟩
    by_contra hnr
    rw [Bool.not_eq_true] at hnr
    rw [processRound_skipped ctx statsMap t o p po rnd hobj hnr] at hr
    simp at hr
  · intro hr
    exact ⟨_,
      processRound_accepted ctx statsMap t o p po rnd stats n hr hn hs ho⟩

theorem processRound_emits_iff_witness :
    ∃ r, processRound ⟨.str "g1", "2024-01-01", .str "m1", .str "l1",
        .str "s1", some 2, .str "t7"⟩ [(.str "p0", statsOfFields [])]
      (.str "t1") (.str "t2") (.str "p0") (.str "p5")
      (mkRound 1 "t1" "t1" "t1" "eliminated") = .ok (some r) :=
  (processRound_emits_iff _ _ _ _ _ _ _ (statsOfFields []) 1 (by decide)
    (by decide) (by decide) (by decide)).mpr (by decide)

/-! ## C5: defaulting of statistics -/

theorem buildFold_values {P : Stats → Prop} (A B : JVal) (hA : truthy A = true)
    (hB : truthy B = true) (hhA : pyHashable A = true)
    (hhB : pyHashable B = true) :
    ∀ (ps : List JVal) (st : BuildState),
      (∀ p ∈ ps, partFor p A B = true ∨ partFor p B A = true) →
      (∀ p ∈ ps, P (statsOfFields (partFields p))) →
      (∀ e ∈ st.stats, P e.2) →
      ∀ st', ps.foldlM buildStep st = .ok st' → ∀ e ∈ st'.stats, P e.2 := by
  intro ps
  induction ps with
  | nil =>
      intro st _ _ hst st' hf
      simp only [List.foldlM, pure, Except.pure, Except.ok.injEq] at hf
      subst hf
      exact hst
  | cons p ps ih =>
      intro st hparts hP hst st' hf
      rcases hparts p (by simp) with hp | hp
      · rw [List.foldlM_cons, buildStep_part st p A B hp hA hB hhA] at hf
        simp only [bind, Except.bind] at hf
        exact ih _ (fun q hq => hparts q (by simp [hq]))
          (fun q hq => hP q (by simp [hq]))
          (alistInsert_values st.stats (partPid p) (statsOfFields (partFields p))
            hst (hP p (by simp))) st' hf
      · rw [List.foldlM_cons, buildStep_part st p B A hp hB hA hhB] at hf
        simp only [bind, Except.bind] at hf
        exact ih _ (fun q hq => hparts q (by simp [hq]))
          (fun q hq => hP q (by simp [hq]))
          (alistInsert_values st.stats (partPid p) (statsOfFields (partFields p))
            hst (hP p (by simp))) st' hf

/-- C5 counterexample: a statistic that is present with value null is carried
through to the rows as null — not replaced by numeric zero.  Every one of the
50 rows of `nullStatsGame` (each of whose participation entries carries
`"adr": null`) has `adr = null ≠ 0`. -/
theorem null_stat_kept_null :
    ∃ rows, flatten_game nullStatsGame = .ok rows ∧ rows.length = 50 ∧
      ∀ r ∈ rows, r.adr = JVal.null ∧ r.adr ≠ JVal.num 0 := by
  obtain ⟨rows, d, sm, tp, tm, hrows, hdd, hfold, hlen, hmem⟩ :=
    flatten_usable nullStatsGame (.str "t1") (.str "t2") (by decide)
  have hvals : ∀ e ∈ (⟨sm, tp, tm⟩ : BuildState).stats, e.2.adr = JVal.null :=
    buildFold_values (P := fun s => s.adr = JVal.null) (.str "t1") (.str "t2")
      (by decide) (by decide) (by decide) (by decide)
      (playersOf nullStatsGame) ⟨[], [], []⟩
      (by decide) (by decide) (by intro e he; simp at he) ⟨sm, tp, tm⟩ hfold
  refine ⟨rows, hrows, ?_, ?_⟩
  · rw [hlen,
      show (roundsOf nullStatsGame).countP
        (fun rnd => roundFor (.str "t1") (.str "t2") rnd) = 1 from by decide,
      show (roundsOf nullStatsGame).countP
        (fun rnd => roundFor (.str "t2") (.str "t1") rnd) = 1 from by decide]
  · intro r hr
    obtain ⟨t, o, p, po, rnd, n, stats, h1, h2, h3, h4, h5, h6⟩ := hmem r hr
    subst h5
    obtain ⟨y, hy⟩ := alistFind_mem sm p stats h1
    have hadr : stats.adr = JVal.null := hvals (y, stats) hy
    exact ⟨hadr, by rw [show (rowOf (ctxOf nullStatsGame d) stats t o p po rnd
      n).adr = stats.adr from rfl, hadr]; decide⟩

/-- C5 amended: a statistic that is absent from a participation entry defaults
to numeric zero and is never omitted from the row (the `sampleGame` fixture
carries no statistics and all 800 of its rows have all ten statistics equal
to 0); a statistic that is present with value null is carried through as null
(not zero), and neither case causes the match or the row to be rejected. -/
theorem stat_default_behaviour :
    (∀ pf k, lookupStr pf k = none → statGet pf k = .num 0) ∧
    (∀ pf k, lookupStr pf k = some .null → statGet pf k = .null) ∧
    (∃ rows, flatten_game sampleGame = .ok rows ∧ rows.length = 800 ∧
      ∀ r ∈ rows, r.adr = .num 0 ∧ r.kast = .num 0 ∧ r.rating = .num 0 ∧
        r.kills = .num 0 ∧ r.deaths = .num 0 ∧ r.assists = .num 0 ∧
        r.headshots = .num 0 ∧ r.flash_assists = .num 0 ∧
        r.first_kills_diff = .num 0 ∧ r.k_d_diff = .num 0) ∧
    (∃ rows, flatten_game nullStatsGame = .ok rows ∧ rows.length = 50) := by
  refine ⟨?_, ?_, ?_, ?_⟩
  · intro pf k h
    simp [statGet, h]
  · intro pf k h
    simp [statGet, h]
  · obtain ⟨rows, d, sm, tp, tm, hrows, hdd, hfold, hlen, hmem⟩ :=
      flatten_usable sampleGame (.str "t1") (.str "t2") (by decide)
    have hvals : ∀ e ∈ (⟨sm, tp, tm⟩ : BuildState).stats,
        e.2 = statsOfFields [] :=
      buildFold_values (P := fun s => s = statsOfFields []) (.str "t1")
        (.str "t2") (by decide) (by decide) (by decide) (by decide)
        (playersOf sampleGame) ⟨[], [], []⟩
        (by decide) (by decide) (by intro e he; simp at he) ⟨sm, tp, tm⟩ hfold
    refine ⟨rows, hrows, ?_, ?_⟩
    · rw [hlen,
        show (roundsOf sampleGame).countP
          (fun rnd => roundFor (.str "t1") (.str "t2") rnd) = 16 from by decide,
        show (roundsOf sampleGame).countP
          (fun rnd => roundFor (.str "t2") (.str "t1") rnd) = 16 from by decide]
    · intro r hr
      obtain ⟨t, o, p, po, rnd, n, stats, h1, h2, h3, h4, h5, h6⟩ := hmem r hr
      subst h5
      obtain ⟨y, hy⟩ := alistFind_mem sm p stats h1
      have hstats : stats = statsOfFields [] := hvals (y, stats) hy
      subst hstats
      exact ⟨rfl, rfl, rfl, rfl, rfl, rfl, rfl, rfl, rfl, rfl⟩
  · obtain ⟨rows, d, sm, tp, tm, hrows, hdd, hfold, hlen, hmem⟩ :=
      flatten_usable nullStatsGame (.str "t1") (.str "t2") (by decide)
    refine ⟨rows, hrows, ?_⟩
    rw [hlen,
      show (roundsOf nullStatsGame).countP
        (fun rnd => roundFor (.str "t1") (.str "t2") rnd) = 1 from by decide,
      show (roundsOf nullStatsGame).countP
        (fun rnd => roundFor (.str "t2") (.str "t1") rnd) = 1 from by decide]

theorem stat_default_behaviour_witness :
    statGet [] "adr" = JVal.num 0 ∧
    statGet [("adr", JVal.null)] "adr" = JVal.null :=
  ⟨stat_default_behaviour.1 [] "adr" rfl,
   stat_default_behaviour.2.1 [("adr", JVal.null)] "adr" rfl⟩

/-! ## C6: whole-match gates -/

theorem pyIndex_zero_obj {v r : JVal} {k : String} {x : JVal}
    (h1 : pyIndex v 0 = .ok r) (h2 : pyGet r k = .ok x) :
    ∃ r0f xs, v = .arr (.obj r0f :: xs) ∧ r = .obj r0f := by
  cases v with
  | arr ys =>
      cases ys with
      | nil => simp [pyIndex] at h1
      | cons y ys =>
          simp only [pyIndex, List.get?, Except.ok.injEq] at h1
          subst h1
          cases y with
          | obj r0f => exact ⟨r0f, ys, rfl, rfl⟩
          | null => simp [pyGet] at h2
          | bool b => simp [pyGet] at h2
          | num n => simp [pyGet] at h2
          | str s => simp [pyGet] at h2
          | arr zs => simp [pyGet] at h2
  | str s =>
      simp only [pyIndex] at h1
      split at h1
      · simp only [Except.ok.injEq] at h1
        subst h1
        simp [pyGet] at h2
      · exact absurd h1 (by simp)
  | null => simp [pyIndex] at h1
  | bool b => simp [pyIndex] at h1
  | num n => simp [pyIndex] at h1
  | obj o => simp [pyIndex] at h1

theorem flatten_reaches_players {game : JVal} {rows : List Row}
    (h : flatten_game game = .ok rows) (hne : rows ≠ []) :
    ∃ ctx, flatten_game_players game ctx = .ok rows := by
  rw [flatten_game] at h
  repeat' split at h
  all_goals first
    | (exfalso; revert h; simp; done)
    | (exfalso; apply hne; injection h with h2; exact h2.symm)
    | exact ⟨_, h⟩

theorem flatten_ok_nonempty_facts {game : JVal} {rows : List Row}
    (h : flatten_game game = .ok rows) (hne : rows ≠ []) :
    playersLenOf game = some 10 ∧
    (∃ n, roundsLenOf game = some n ∧ 16 ≤ n) ∧
    firstRoundIsOne game = true := by
  obtain ⟨ctx, h⟩ := flatten_reaches_players h hne
  cases game with
  | null => rw [flatten_game_players] at h; simp [pyGetD] at h
  | bool b => rw [flatten_game_players] at h; simp [pyGetD] at h
  | num n => rw [flatten_game_players] at h; simp [pyGetD] at h
  | str s => rw [flatten_game_players] at h; simp [pyGetD] at h
  | arr xs => rw [flatten_game_players] at h; simp [pyGetD] at h
  | obj fs =>
  rw [flatten_game_players] at h
  simp only [pyGetD] at h
  cases hlen : pyLen ((lookupStr fs "players").getD (.arr [])) with
  | error e => simp only [hlen] at h; exact absurd h (by simp)
  | ok nP =>
  simp only [hlen] at h
  by_cases hcond : nP ≠ 10
  · simp only [if_pos hcond, Except.ok.injEq] at h
    exact absurd h.symm hne
  · simp only [if_neg hcond] at h
    rw [not_not] at hcond
    cases hiter : pyIter ((lookupStr fs "players").getD (.arr [])) with
    | error e => simp only [hiter] at h; exact absurd h (by simp)
    | ok pl =>
    simp only [hiter] at h
    cases hfold : pl.foldlM buildStep
        (⟨[], [], []⟩ : BuildState) with
    | error e => simp only [hfold] at h; exact absurd h (by simp)
    | ok st =>
    simp only [hfold] at h
    cases hrlen : pyLen ((lookupStr fs "rounds").getD (.arr [])) with
    | error e => simp only [hrlen] at h; exact absurd h (by simp)
    | ok nR =>
    simp only [hrlen] at h
    by_cases h16 : nR < 16
    · simp only [if_pos h16, Except.ok.injEq] at h
      exact absurd h.symm hne
    · simp only [if_neg h16] at h
      by_cases htr : truthy ((lookupStr fs "rounds").getD (.arr [])) = true
      · simp only [htr, Bool.not_true, Bool.false_eq_true, if_false] at h
        cases hidx : pyIndex ((lookupStr fs "rounds").getD (.arr [])) 0 with
        | error e => simp only [hidx] at h; exact absurd h (by simp)
        | ok r0 =>
        simp only [hidx] at h
        cases hr0 : pyGet r0 "round" with
        | error e => simp only [hr0] at h; exact absurd h (by simp)
        | ok r0n =>
        simp only [hr0] at h
        by_cases hpe : pyEq r0n (.num 1) = true
        · refine ⟨?_, ⟨nR, ?_, by omega⟩, ?_⟩
          · rw [hcond] at hlen
            simp [playersLenOf, hlen, Except.toOption]
          · simp [roundsLenOf, hrlen, Except.toOption]
          · obtain ⟨r0f, rest, hrv, hr0eq⟩ := pyIndex_zero_obj hidx hr0
            rw [hr0eq] at hr0
            simp only [pyGet, Except.ok.injEq] at hr0
            simp only [firstRoundIsOne, hrv]
            rw [hr0, hpe]
        · rw [Bool.not_eq_true] at hpe
          simp only [hpe, Bool.not_false, if_true, Except.ok.injEq] at h
          exact absurd h.symm hne
      · rw [Bool.not_eq_true] at htr
        simp only [htr, Bool.not_false, if_true, Except.ok.injEq] at h
        exact absurd h.symm hne

/-- C6: a match document with a participation list that does not contain
exactly 10 entries, or a rounds list of fewer than 16 entries, or a first
round entry whose round number is not 1, flattens to the empty row
sequence. -/
theorem flatten_rejects_malformed (game : JVal) (rows : List Row)
    (h : flatten_game game = .ok rows) :
    (playersLenOf game ≠ some 10 → rows = []) ∧
    (∀ n, roundsLenOf game = some n → n < 16 → rows = []) ∧
    (firstRoundIsOne game = false → rows = []) := by
  by_cases hne : rows = []
  · exact ⟨fun _ => hne, fun _ _ _ => hne, fun _ => hne⟩
  · obtain ⟨h1, ⟨m, hm, h16⟩, h3⟩ := flatten_ok_nonempty_facts h hne
    refine ⟨fun hc => absurd h1 hc, fun n hn hlt => ?_, fun hc => ?_⟩
    · rw [hn] at hm
      simp only [Option.some.injEq] at hm
      omega
    · rw [h3] at hc
      simp at hc

theorem flatten_rejects_malformed_witness :
    flatten_game nineGame = .ok [] ∧ playersLenOf nineGame = some 9 ∧
    flatten_game shortRoundsGame = .ok [] ∧
    roundsLenOf shortRoundsGame = some 1 ∧
    flatten_game round2Game = .ok [] ∧ firstRoundIsOne round2Game = false ∧
    ([] : List Row) = [] :=
  ⟨rfl, by decide, rfl, by decide, rfl, by decide,
   (flatten_rejects_malformed nineGame [] rfl).1 (by decide)⟩

/-! ## C9: the batch runner's result list -/

theorem processRound_gid {ctx : GameCtx} {statsMap : List (JVal × Stats)}
    {t o p po rnd : JVal} {r : Row}
    (h : processRound ctx statsMap t o p po rnd = .ok (some r)) :
    r.game_id = ctx.game_id := by
  cases rnd with
  | obj rf =>
      simp only [processRound] at h
      repeat' split at h
      all_goals first
        | (exfalso; revert h; simp; done)
        | (simp only [Except.ok.injEq, Option.some.injEq] at h; subst h; rfl)
  | null => simp [processRound] at h
  | bool b => simp [processRound] at h
  | num n => simp [processRound] at h
  | str s => simp [processRound] at h
  | arr xs => simp [processRound] at h

theorem rowsForRounds_gid {ctx : GameCtx} {statsMap : List (JVal × Stats)}
    {t o p po : JVal} (rs : List JVal) :
    ∀ l, rowsForRounds ctx statsMap t o p po rs = .ok l →
      ∀ r ∈ l, r.game_id = ctx.game_id := by
  induction rs with
  | nil =>
      intro l h r hr
      simp only [rowsForRounds, Except.ok.injEq] at h
      subst h
      simp at hr
  | cons rnd rest ih =>
      intro l h r hr
      simp only [rowsForRounds] at h
      cases hpr : processRound ctx statsMap t o p po rnd with
      | error e => simp only [hpr] at h; exact absurd h (by simp)
      | ok ro =>
        simp only [hpr] at h
        cases hrest : rowsForRounds ctx statsMap t o p po rest with
        | error e => simp only [hrest] at h; exact absurd h (by simp)
        | ok l2 =>
          simp only [hrest, Except.ok.injEq] at h
          subst h
          rcases List.mem_append.mp hr with hr | hr
          · cases ro with
            | none => simp at hr
            | some row =>
                simp only [Option.toList, List.mem_singleton] at hr
                subst hr
                exact processRound_gid hpr
          · exact ih l2 hrest r hr

theorem rowsForOpp_gid {ctx : GameCtx} {statsMap : List (JVal × Stats)}
    {t o p : JVal} {rounds : List JVal} (pos : List JVal) :
    ∀ l, rowsForOpp ctx statsMap t o p rounds pos = .ok l →
      ∀ r ∈ l, r.game_id = ctx.game_id := by
  induction pos with
  | nil =>
      intro l h r hr
      simp only [rowsForOpp, Except.ok.injEq] at h
      subst h
      simp at hr
  | cons po rest ih =>
      intro l h r hr
      simp only [rowsForOpp] at h
      cases h1 : rowsForRounds ctx statsMap t o p po rounds with
      | error e => simp only [h1] at h; exact absurd h (by simp)
      | ok l1 =>
        simp only [h1] at h
        cases h2 : rowsForOpp ctx statsMap t o p rounds rest with
        | error e => simp only [h2] at h; exact absurd h (by simp)
        | ok l2 =>
          simp only [h2, Except.ok.injEq] at h
          subst h
          rcases List.mem_append.mp hr with hr | hr
          · exact rowsForRounds_gid rounds l1 h1 r hr
          · exact ih l2 h2 r hr

theorem rowsForPlayers_gid {ctx : GameCtx} {statsMap : List (JVal × Stats)}
    {t o : JVal} {pos rounds : List JVal} (pids : List JVal) :
    ∀ l, rowsForPlayers ctx statsMap t o pos rounds pids = .ok l →
      ∀ r ∈ l, r.game_id = ctx.game_id := by
  induction pids with
  | nil =>
      intro l h r hr
      simp only [rowsForPlayers, Except.ok.injEq] at h
      subst h
      simp at hr
  | cons p rest ih =>
      intro l h r hr
      simp only [rowsForPlayers] at h
      cases h1 : rowsForOpp ctx statsMap t o p rounds pos with
      | error e => simp only [h1] at h; exact absurd h (by simp)
      | ok l1 =>
        simp only [h1] at h
        cases h2 : rowsForPlayers ctx statsMap t o pos rounds rest with
        | error e => simp only [h2] at h; exact absurd h (by simp)
        | ok l2 =>
          simp only [h2, Except.ok.injEq] at h
          subst h
          rcases List.mem_append.mp hr with hr | hr
          · exact rowsForOpp_gid pos l1 h1 r hr
          · exact ih l2 h2 r hr

theorem rowsForTeams_gid {ctx : GameCtx} {statsMap : List (JVal × Stats)}
    {tp : List (JVal × List JVal)} {dt : List (JVal × JVal)}
    {rounds : List JVal} (entries : List (JVal × List JVal)) :
    ∀ l, rowsForTeams ctx statsMap tp dt rounds entries = .ok l →
      ∀ r ∈ l, r.game_id = ctx.game_id := by
  induction entries with
  | nil =>
      intro l h r hr
      simp only [rowsForTeams, Except.ok.injEq] at h
      subst h
      simp at hr
  | cons e rest ih =>
      obtain ⟨t_id, p_ids⟩ := e
      intro l h r hr
      simp only [rowsForTeams] at h
      by_cases h5 : distinctCount p_ids ≠ 5
      · rw [if_pos h5] at h
        exact ih l h r hr
      · rw [if_neg h5] at h
        by_cases htr : truthy ((alistFind dt t_id).getD .null) = true
        · simp only [htr, Bool.not_true, Bool.false_eq_true, if_false] at h
          by_cases hh : pyHashable ((alistFind dt t_id).getD .null) = true
          · simp only [hh, Bool.not_true, Bool.false_eq_true, if_false] at h
            cases hfind : alistFind tp ((alistFind dt t_id).getD .null) with
            | none =>
                simp only [hfind] at h
                exact ih l h r hr
            | some p_opp =>
                simp only [hfind] at h
                cases h1 : rowsForPlayers ctx statsMap t_id
                    ((alistFind dt t_id).getD .null) p_opp rounds p_ids with
                | error e => simp only [h1] at h; exact absurd h (by simp)
                | ok l1 =>
                  simp only [h1] at h
                  cases h2 : rowsForTeams ctx statsMap tp dt rounds rest with
                  | error e => simp only [h2] at h; exact absurd h (by simp)
                  | ok l2 =>
                    simp only [h2, Except.ok.injEq] at h
                    subst h
                    rcases List.mem_append.mp hr with hr | hr
                    · exact rowsForPlayers_gid p_ids l1 h1 r hr
                    · exact ih l2 h2 r hr
          · rw [Bool.not_eq_true] at hh
            simp only [hh, Bool.not_false, if_true] at h
            exact absurd h (by simp)
        · rw [Bool.not_eq_true] at htr
          simp only [htr, Bool.not_false, if_true] at h
          exact ih l h r hr

theorem flatten_players_gid {game : JVal} {ctx : GameCtx} {rows : List Row}
    (h : flatten_game_players game ctx = .ok rows) :
    ∀ r ∈ rows, r.game_id = ctx.game_id := by
  intro r hr
  rw [flatten_game_players] at h
  repeat' split at h
  all_goals first
    | (exfalso; revert h; simp; done)
    | (simp only [Except.ok.injEq] at h; subst h; simp at hr; done)
    | exact rowsForTeams_gid _ _ h r hr

theorem flatten_gid {game : JVal} {rows : List Row}
    (h : flatten_game game = .ok rows) : ∀ r ∈ rows, r.game_id = docId game := by
  intro r hr
  cases game with
  | null => simp [flatten_game, pyGet] at h
  | bool b => simp [flatten_game, pyGet] at h
  | num n => simp [flatten_game, pyGet] at h
  | str s => simp [flatten_game, pyGet] at h
  | arr xs => simp [flatten_game, pyGet] at h
  | obj fs =>
      rw [flatten_game] at h
      simp only [pyGet, pyGetD] at h
      repeat' split at h
      all_goals first
        | (exfalso; revert h; simp; done)
        | (simp only [Except.ok.injEq] at h; subst h; simp at hr; done)
        | (have hgid := flatten_players_gid h r hr; simpa [docId] using hgid)

theorem process_games_go_eq (games : List JVal) :
    ∀ acc, (∀ g ∈ games, (flatten_game g).isOk = true) →
      process_games_go games acc = .ok (acc ++ games.filterMap (fun g =>
        match flatten_game g with
        | .ok (_ :: _) => some (docId g)
        | _ => none)) := by
  induction games with
  | nil => intro acc _; simp [process_games_go]
  | cons g gs ih =>
      intro acc hok
      have hg := hok g (by simp)
      cases hf : flatten_game g with
      | error e => rw [hf] at hg; simp [Except.isOk, Except.toBool] at hg
      | ok flat =>
          cases flat with
          | nil =>
              simp only [process_games_go, hf]
              rw [ih acc (fun q hq => hok q (by simp [hq]))]
              simp [List.filterMap_cons, hf]
          | cons r rest' =>
              simp only [process_games_go, hf]
              rw [ih (acc ++ [r.game_id]) (fun q hq => hok q (by simp [hq]))]
              have hgid : r.game_id = docId g := flatten_gid hf r (by simp)
              simp [List.filterMap_cons, hf, hgid]

/-- C9: the batch runner's result list contains exactly the match identifiers
of the documents for which the flattening engine produced a non-empty row
sequence, in processing order; documents yielding no rows contribute no
entry and raise no error. -/
theorem process_games_result (games : List JVal)
    (h : ∀ g ∈ games, (flatten_game g).isOk = true) :
    process_games_list games = .ok (games.filterMap (fun g =>
      match flatten_game g with
      | .ok (_ :: _) => some (docId g)
      | _ => none)) := by
  rw [process_games_list, process_games_go_eq games [] h]
  simp

theorem process_games_result_witness :
    process_games_list [JVal.obj [], nineGame] =
      .ok ([JVal.obj [], nineGame].filterMap (fun g =>
        match flatten_game g with
        | .ok (_ :: _) => some (docId g)
        | _ => none)) :=
  process_games_result [JVal.obj [], nineGame] (by
    intro g hg
    simp only [List.mem_cons, List.not_mem_nil, or_false] at hg
    rcases hg with rfl | rfl <;> rfl)

/-! ## C2: typing conditions under which the flattener cannot raise -/

/-- A participation entry typed well enough for the participation loop not to
raise: dict-shaped, with dict-shaped (or absent) `player`/`team`/`opponent`
sub-objects and hashable ids. -/
def partWT (p : JVal) : Bool :=
  isObjVal p &&
  optObj (lookupStr (partFields p) "player") &&
  optObj (lookupStr (partFields p) "team") &&
  optObj (lookupStr (partFields p) "opponent") &&
  pyHashable (partPid p) && pyHashable (partTid p) && pyHashable (partOid p)

/-- A round entry typed well enough for the round loop not to raise:
dict-shaped, with a round number that is an integer whenever it is truthy
(a falsy round number of any type is skipped before `int(...)` runs) and a
hashable outcome value (the outcome literal-dict lookup hashes it). -/
def roundWT (rnd : JVal) : Bool :=
  isObjVal rnd &&
  (match roundNumOf rnd with
   | .num _ => true
   | v => !truthy v) &&
  pyHashable (roundOutcome rnd)

/-- A match document typed well enough for every attribute access, dict-key
hash and int conversion in `flatten_game` to succeed: the flattener may still
reject such a document (empty output), but it cannot raise on it. -/
def wellTypedGame (game : JVal) : Bool :=
  match game with
  | .obj fs =>
      optObj (lookupStr fs "map") &&
      metaOk ((lookupStr fs "match").getD (.obj [])) &&
      tierHashOk ((lookupStr fs "match").getD (.obj [])) &&
      (match (lookupStr fs "players").getD (.arr []) with
       | .arr ps => ps.all partWT
       | _ => false) &&
      (match (lookupStr fs "rounds").getD (.arr []) with
       | .arr rs => rs.all roundWT
       | _ => false)
  | _ => false

/-- Invariant of the participation-loop state that rules out the later
`KeyError` and `TypeError` sites: every player id recorded in a team roster
is a key of the stats dict, and every recorded opponent id is hashable. -/
def buildInv (st : BuildState) : Prop :=
  (∀ e ∈ st.teamPlayers, ∀ q ∈ e.2, (alistFind st.stats q).isSome = true) ∧
  (∀ e ∈ st.teams, pyHashable e.2 = true)

theorem roundWT_num {rnd : JVal} (hw : roundWT rnd = true)
    (ht : truthy (roundNumOf rnd) = true) :
    ∃ n : Int, roundNumOf rnd = .num n := by
  simp only [roundWT, Bool.and_eq_true] at hw
  cases hv : roundNumOf rnd with
  | num n => exact ⟨n, rfl⟩
  | null =>
      rw [hv] at hw ht
      have hw' : (!truthy JVal.null) = true := hw.1.2
      rw [ht] at hw'
      exact Bool.noConfusion (show false = true from hw')
  | bool b =>
      rw [hv] at hw ht
      have hw' : (!truthy (JVal.bool b)) = true := hw.1.2
      rw [ht] at hw'
      exact Bool.noConfusion (show false = true from hw')
  | str s =>
      rw [hv] at hw ht
      have hw' : (!truthy (JVal.str s)) = true := hw.1.2
      rw [ht] at hw'
      exact Bool.noConfusion (show false = true from hw')
  | arr xs =>
      rw [hv] at hw ht
      have hw' : (!truthy (JVal.arr xs)) = true := hw.1.2
      rw [ht] at hw'
      exact Bool.noConfusion (show false = true from hw')
  | obj fs2 =>
      rw [hv] at hw ht
      have hw' : (!truthy (JVal.obj fs2)) = true := hw.1.2
      rw [ht] at hw'
      exact Bool.noConfusion (show false = true from hw')

theorem buildStep_wt (st : BuildState) (p : JVal) (hp : partWT p = true)
    (hinv : buildInv st) : ∃ st', buildStep st p = .ok st' ∧ buildInv st' := by
  cases p with
  | null => simp [partWT, isObjVal] at hp
  | bool b => simp [partWT, isObjVal] at hp
  | num n => simp [partWT, isObjVal] at hp
  | str s => simp [partWT, isObjVal] at hp
  | arr xs => simp [partWT, isObjVal] at hp
  | obj pf =>
      simp only [partWT, partFields, Bool.and_eq_true] at hp
      obtain ⟨⟨⟨⟨⟨⟨-, hople⟩, hopt⟩, hopo⟩, hhp⟩, hht⟩, hho⟩ := hp
      obtain ⟨plf, hplf⟩ := isObjVal_exists (optObj_getD hople)
      obtain ⟨tmf, htmf⟩ := isObjVal_exists (optObj_getD hopt)
      obtain ⟨opf, hopf⟩ := isObjVal_exists (optObj_getD hopo)
      have epid : partPid (.obj pf) = (lookupStr plf "id").getD .null := by
        simp [partPid, subId, subField, hplf]
      have etid : partTid (.obj pf) = (lookupStr tmf "id").getD .null := by
        simp [partTid, subId, subField, htmf]
      have eoid : partOid (.obj pf) = (lookupStr opf "id").getD .null := by
        simp [partOid, subId, subField, hopf]
      rw [epid] at hhp
      rw [etid] at hht
      rw [eoid] at hho
      by_cases hcond : (truthy ((lookupStr plf "id").getD .null) &&
          truthy ((lookupStr tmf "id").getD .null) &&
          truthy ((lookupStr opf "id").getD .null)) = true
      · refine ⟨{ stats := alistInsert st.stats
                    ((lookupStr plf "id").getD .null) (statsOfFields pf)
                  teamPlayers := ddAppend st.teamPlayers
                    ((lookupStr tmf "id").getD .null)
                    ((lookupStr plf "id").getD .null)
                  teams := alistInsert st.teams
                    ((lookupStr tmf "id").getD .null)
                    ((lookupStr opf "id").getD .null) }, ?_, ?_, ?_⟩
        · simp only [buildStep, pyGet, hplf, htmf, hopf, hcond, hhp, hht,
            Bool.not_true, Bool.false_eq_true, if_false]
        · intro e he q hq
          rcases ddAppend_mem st.teamPlayers _ _ e he q hq with ⟨e', he', hq'⟩ | rfl
          · exact alistFind_insert_isSome_mono _ _ _ _ (hinv.1 e' he' q hq')
          · rw [alistFind_insert_self _ _ _ (pyEq_refl _ hhp)]
            rfl
        · exact @alistInsert_values JVal (fun x => pyHashable x = true)
            st.teams _ _ hinv.2 hho
      · rw [Bool.not_eq_true] at hcond
        refine ⟨st, ?_, hinv⟩
        simp only [buildStep, pyGet, hplf, htmf, hopf, hcond, Bool.not_false,
          if_true]

theorem buildFold_wt : ∀ (ps : List JVal) (st : BuildState),
    (∀ p ∈ ps, partWT p = true) → buildInv st →
    ∃ st', ps.foldlM buildStep st = .ok st' ∧ buildInv st' := by
  intro ps
  induction ps with
  | nil =>
      intro st _ hinv
      exact ⟨st, by simp [List.foldlM, pure, Except.pure], hinv⟩
  | cons p ps ih =>
      intro st hps hinv
      obtain ⟨st1, hstep, hinv1⟩ := buildStep_wt st p (hps p (by simp)) hinv
      obtain ⟨st', hfold, hinv'⟩ :=
        ih st1 (fun q hq => hps q (by simp [hq])) hinv1
      refine ⟨st', ?_, hinv'⟩
      rw [List.foldlM_cons, hstep]
      simpa using hfold

theorem rowsForTeams_wt (ctx : GameCtx) (statsMap : List (JVal × Stats))
    (teamPlayers : List (JVal × List JVal)) (d_teams : List (JVal × JVal))
    (rounds : List JVal)
    (hteams : ∀ e ∈ d_teams, pyHashable e.2 = true)
    (hobj : ∀ rnd ∈ rounds, isObjVal rnd = true)
    (hnum : ∀ rnd ∈ rounds, truthy (roundNumOf rnd) = true →
      ∃ n : Int, roundNumOf rnd = .num n)
    (hout : ∀ rnd ∈ rounds, pyHashable (roundOutcome rnd) = true) :
    ∀ entries : List (JVal × List JVal),
      (∀ e ∈ entries, ∀ q ∈ e.2, (alistFind statsMap q).isSome = true) →
      ∃ l, rowsForTeams ctx statsMap teamPlayers d_teams rounds entries =
        .ok l := by
  intro entries
  induction entries with
  | nil => intro _; exact ⟨[], rfl⟩
  | cons e rest ih =>
      obtain ⟨t_id, p_ids⟩ := e
      intro hentries
      obtain ⟨l2, hl2⟩ := ih (fun e he => hentries e (by simp [he]))
      by_cases h5 : distinctCount p_ids ≠ 5
      · exact ⟨l2, by simp only [rowsForTeams, if_pos h5]; exact hl2⟩
      · cases hfind : alistFind d_teams t_id with
        | none =>
            refine ⟨l2, ?_⟩
            simp only [rowsForTeams, if_neg h5, hfind, Option.getD_none,
              truthy, Bool.not_false, if_true]
            exact hl2
        | some t_opp =>
            have hhash : pyHashable t_opp = true := by
              obtain ⟨y, hy⟩ := alistFind_mem d_teams t_id t_opp hfind
              exact hteams (y, t_opp) hy
            by_cases htr : truthy t_opp = true
            · cases hpfind : alistFind teamPlayers t_opp with
              | none =>
                  refine ⟨l2, ?_⟩
                  simp only [rowsForTeams, if_neg h5, hfind, Option.getD_some,
                    htr, hhash, hpfind, Bool.not_true, Bool.false_eq_true,
                    if_false]
                  exact hl2
              | some p_opp_ids =>
                  obtain ⟨l1, hl1, -, -⟩ := rowsForPlayers_eval ctx statsMap
                    t_id t_opp rounds p_opp_ids p_ids hobj hnum
                    (fun rnd hr _ => hout rnd hr)
                    (fun q hq => hentries (t_id, p_ids) (by simp) q hq)
                  refine ⟨l1 ++ l2, ?_⟩
                  simp only [rowsForTeams, if_neg h5, hfind, Option.getD_some,
                    htr, hhash, hpfind, Bool.not_true, Bool.false_eq_true,
                    if_false, hl1, hl2]
            · rw [Bool.not_eq_true] at htr
              refine ⟨l2, ?_⟩
              simp only [rowsForTeams, if_neg h5, hfind, Option.getD_some,
                htr, Bool.not_false, if_true]
              exact hl2

theorem flatten_game_eq_players
    (game game_id bv mapVal map_id matchVal leagueVal league_id serieVal
      serie_id tierVal tournVal tournament_id : JVal) (d : String)
    (stv : Option Int)
    (h1 : pyGet game "id" = .ok game_id) (h2 : truthy game_id = true)
    (h3 : pyGet game "begin_at" = .ok bv) (h4 : parseDate bv = some d)
    (h5 : pyGetD game "map" (.obj []) = .ok mapVal)
    (h6 : pyGet mapVal "id" = .ok map_id) (h7 : truthy map_id = true)
    (h8 : pyGetD game "match" (.obj []) = .ok matchVal)
    (h9 : pyGetD matchVal "league" (.obj []) = .ok leagueVal)
    (h10 : pyGet leagueVal "id" = .ok league_id)
    (h11 : pyGetD matchVal "serie" (.obj []) = .ok serieVal)
    (h12 : pyGet serieVal "id" = .ok serie_id)
    (h13 : pyGet serieVal "tier" = .ok tierVal)
    (h13b : tierMap tierVal = .ok stv)
    (h14 : pyGetD matchVal "tournament" (.obj []) = .ok tournVal)
    (h15 : pyGet tournVal "id" = .ok tournament_id) :
    flatten_game game = flatten_game_players game
      ⟨game_id, d, map_id, league_id, serie_id, stv, tournament_id⟩ := by
  unfold flatten_game
  simp only [h1, h2, h3, h4, h5, h6, h7, h8, h9, h10, h11, h12, h13, h13b,
    h14, h15, Bool.not_true, Bool.false_eq_true, if_false]

/-- C2 amended: `flatten_game` is not total — on documents that are not
dict-shaped deep enough, or that put an unhashable value where a dict key is
hashed (player/team/opponent ids, the serie tier, a round's outcome), it
raises instead of returning an empty sequence (see the counterexample) — but
on every well-typed document (`wellTypedGame`) it returns a result rather
than raising, and the spec's particular case does hold in general: on any
dict-shaped document whose start timestamp fails to parse, the failure is
absorbed locally and the result is the empty row list. -/
theorem flatten_total_on_welltyped (game : JVal) :
    (wellTypedGame game = true → (flatten_game game).isOk = true) ∧
    (∀ fs, game = JVal.obj fs →
      parseDate ((lookupStr fs "begin_at").getD .null) = none →
      flatten_game game = .ok []) := by
  constructor
  · intro h
    cases game with
    | null => simp [wellTypedGame] at h
    | bool b => simp [wellTypedGame] at h
    | num n => simp [wellTypedGame] at h
    | str s => simp [wellTypedGame] at h
    | arr xs => simp [wellTypedGame] at h
    | obj fs =>
    simp only [wellTypedGame, Bool.and_eq_true] at h
    obtain ⟨⟨⟨⟨hmap, hmeta⟩, htier⟩, hplayers⟩, hrounds⟩ := h
    by_cases hid : truthy ((lookupStr fs "id").getD .null) = true
    case neg =>
      rw [Bool.not_eq_true] at hid
      simp [flatten_game, pyGet, hid, Except.isOk, Except.toBool]
    cases hpd : parseDate ((lookupStr fs "begin_at").getD .null) with
    | none => simp [flatten_game, pyGet, hid, hpd, Except.isOk, Except.toBool]
    | some d =>
    obtain ⟨mf, hmf⟩ := isObjVal_exists (optObj_getD hmap)
    by_cases hmid : truthy ((lookupStr mf "id").getD .null) = true
    case neg =>
      rw [Bool.not_eq_true] at hmid
      simp [flatten_game, pyGet, pyGetD, hid, hpd, hmf, hmid, Except.isOk,
        Except.toBool]
    cases hmatch : (lookupStr fs "match").getD (.obj []) with
    | null =>
        rw [hmatch] at hmeta
        exact Bool.noConfusion (show false = true from hmeta)
    | bool b =>
        rw [hmatch] at hmeta
        exact Bool.noConfusion (show false = true from hmeta)
    | num n =>
        rw [hmatch] at hmeta
        exact Bool.noConfusion (show false = true from hmeta)
    | str s =>
        rw [hmatch] at hmeta
        exact Bool.noConfusion (show false = true from hmeta)
    | arr xs =>
        rw [hmatch] at hmeta
        exact Bool.noConfusion (show false = true from hmeta)
    | obj mf2 =>
    rw [hmatch] at hmeta
    have hmeta' : (optObj (lookupStr mf2 "league") &&
        optObj (lookupStr mf2 "serie") &&
        optObj (lookupStr mf2 "tournament")) = true := hmeta
    simp only [Bool.and_eq_true] at hmeta'
    obtain ⟨⟨hleague, hserie⟩, htourn⟩ := hmeta'
    obtain ⟨lf, hlf⟩ := isObjVal_exists (optObj_getD hleague)
    obtain ⟨sf, hsf⟩ := isObjVal_exists (optObj_getD hserie)
    obtain ⟨tf, htf⟩ := isObjVal_exists (optObj_getD htourn)
    rw [hmatch] at htier
    simp only [tierHashOk] at htier
    rw [hsf] at htier
    have htier2 : pyHashable ((lookupStr sf "tier").getD .null) = true := htier
    have hbridge := flatten_game_eq_players (JVal.obj fs)
      ((lookupStr fs "id").getD .null) ((lookupStr fs "begin_at").getD .null)
      (.obj mf) ((lookupStr mf "id").getD .null) (.obj mf2) (.obj lf)
      ((lookupStr lf "id").getD .null) (.obj sf)
      ((lookupStr sf "id").getD .null) ((lookupStr sf "tier").getD .null)
      (.obj tf) ((lookupStr tf "id").getD .null) d
      (tierTable ((lookupStr sf "tier").getD .null))
      rfl hid rfl hpd (by simp [pyGetD, hmf]) rfl hmid
      (by simp [pyGetD, hmatch]) (by simp [pyGetD, hlf]) rfl
      (by simp [pyGetD, hsf]) rfl rfl (by simp [tierMap, htier2])
      (by simp [pyGetD, htf]) rfl
    rw [hbridge]
    cases hpl : (lookupStr fs "players").getD (.arr []) with
    | null =>
        rw [hpl] at hplayers
        exact Bool.noConfusion (show false = true from hplayers)
    | bool b =>
        rw [hpl] at hplayers
        exact Bool.noConfusion (show false = true from hplayers)
    | num n =>
        rw [hpl] at hplayers
        exact Bool.noConfusion (show false = true from hplayers)
    | str s =>
        rw [hpl] at hplayers
        exact Bool.noConfusion (show false = true from hplayers)
    | obj f2 =>
        rw [hpl] at hplayers
        exact Bool.noConfusion (show false = true from hplayers)
    | arr ps =>
    rw [hpl] at hplayers
    have hallp : ∀ p ∈ ps, partWT p = true := by
      have h' : ps.all partWT = true := hplayers
      simpa [List.all_eq_true] using h'
    have hplGet : pyGetD (JVal.obj fs) "players" (.arr []) = .ok (.arr ps) := by
      simp [pyGetD, hpl]
    by_cases hlen : ps.length = 10
    case neg =>
      simp [flatten_game_players, hplGet, pyLen, hlen, Except.isOk,
        Except.toBool]
    obtain ⟨st, hfold, hinv⟩ := buildFold_wt ps ⟨[], [], []⟩ hallp
      ⟨fun e he => absurd he (List.not_mem_nil e),
       fun e he => absurd he (List.not_mem_nil e)⟩
    cases hrd : (lookupStr fs "rounds").getD (.arr []) with
    | null =>
        rw [hrd] at hrounds
        exact Bool.noConfusion (show false = true from hrounds)
    | bool b =>
        rw [hrd] at hrounds
        exact Bool.noConfusion (show false = true from hrounds)
    | num n =>
        rw [hrd] at hrounds
        exact Bool.noConfusion (show false = true from hrounds)
    | str s =>
        rw [hrd] at hrounds
        exact Bool.noConfusion (show false = true from hrounds)
    | obj f2 =>
        rw [hrd] at hrounds
        exact Bool.noConfusion (show false = true from hrounds)
    | arr rs =>
    rw [hrd] at hrounds
    have hallr : ∀ rnd ∈ rs, roundWT rnd = true := by
      have h' : rs.all roundWT = true := hrounds
      simpa [List.all_eq_true] using h'
    have hrdGet : pyGetD (JVal.obj fs) "rounds" (.arr []) = .ok (.arr rs) := by
      simp [pyGetD, hrd]
    by_cases h16 : rs.length < 16
    case pos =>
      simp [flatten_game_players, hplGet, pyLen, hlen, pyIter, hfold, hrdGet,
        h16, Except.isOk, Except.toBool]
    cases rs with
    | nil => simp at h16
    | cons r0 rest =>
    have hobj0 : isObjVal r0 = true := by
      have hw := hallr r0 (by simp)
      simp only [roundWT, Bool.and_eq_true] at hw
      exact hw.1.1
    obtain ⟨rf0, hrf0⟩ := isObjVal_exists hobj0
    subst hrf0
    by_cases hone : pyEq ((lookupStr rf0 "round").getD .null) (.num 1) = true
    case neg =>
      rw [Bool.not_eq_true] at hone
      simp [flatten_game_players, hplGet, pyLen, hlen, pyIter, hfold, hrdGet,
        h16, truthy, pyIndex, pyGet, hone, Except.isOk, Except.toBool]
    obtain ⟨l, hl⟩ := rowsForTeams_wt
      ⟨(lookupStr fs "id").getD .null, d, (lookupStr mf "id").getD .null,
       (lookupStr lf "id").getD .null, (lookupStr sf "id").getD .null,
       tierTable ((lookupStr sf "tier").getD .null),
       (lookupStr tf "id").getD .null⟩
      st.stats st.teamPlayers st.teams (JVal.obj rf0 :: rest) hinv.2
      (fun rnd hr => by
        have hw := hallr rnd hr
        simp only [roundWT, Bool.and_eq_true] at hw
        exact hw.1.1)
      (fun rnd hr ht => roundWT_num (hallr rnd hr) ht)
      (fun rnd hr => by
        have hw := hallr rnd hr
        simp only [roundWT, Bool.and_eq_true] at hw
        exact hw.2)
      st.teamPlayers hinv.1
    rw [← hbridge]
    have hfull := flatten_game_eq_rowsForTeams (JVal.obj fs)
      ((lookupStr fs "id").getD .null) ((lookupStr fs "begin_at").getD .null)
      (.obj mf) ((lookupStr mf "id").getD .null) (.obj mf2) (.obj lf)
      ((lookupStr lf "id").getD .null) (.obj sf)
      ((lookupStr sf "id").getD .null) ((lookupStr sf "tier").getD .null)
      (.obj tf) ((lookupStr tf "id").getD .null) (.arr ps)
      (.arr (JVal.obj rf0 :: rest)) (JVal.obj rf0)
      ((lookupStr rf0 "round").getD .null) d
      (tierTable ((lookupStr sf "tier").getD .null)) ps
      (JVal.obj rf0 :: rest) st (JVal.obj rf0 :: rest).length
      rfl hid rfl hpd (by simp [pyGetD, hmf]) rfl hmid
      (by simp [pyGetD, hmatch]) (by simp [pyGetD, hlf]) rfl
      (by simp [pyGetD, hsf]) rfl rfl (by simp [tierMap, htier2])
      (by simp [pyGetD, htf]) rfl
      hplGet (by simp [pyLen, hlen]) rfl hfold hrdGet rfl (by omega) rfl rfl
      rfl hone rfl
    rw [hfull, hl]
    rfl
  · intro fs hfs hpd
    subst hfs
    by_cases hid : truthy ((lookupStr fs "id").getD .null) = true
    · simp [flatten_game, pyGet, hid, hpd]
    · rw [Bool.not_eq_true] at hid
      simp [flatten_game, pyGet, hid]

theorem flatten_total_on_welltyped_witness :
    wellTypedGame sampleGame = true ∧
    (flatten_game sampleGame).isOk = true ∧
    flatten_game (JVal.obj [("id", JVal.str "g1"),
      ("begin_at", JVal.str "??")]) = .ok [] :=
  ⟨by decide, (flatten_total_on_welltyped sampleGame).1 (by decide),
   (flatten_total_on_welltyped _).2
     [("id", JVal.str "g1"), ("begin_at", JVal.str "??")] rfl (by decide)⟩
